import Mathlib

set_option maxRecDepth 10000

/-!
Shallow embedding of `src/index.ts` of `ppopgi-worker-cache`, a read-through
caching proxy for a GraphQL-style upstream, together with proofs about its
caching/consistency core: canonical cache-key derivation, pagination clamping,
TTL routing, single-flight coalescing, cacheability filtering and the
forced-fresh meta-guard.

Modelling conventions:
* JavaScript values reachable from a parsed JSON body are modelled by the
  inductive type `JVal`; a JS object is an association list with (in well-formed
  JS inputs) no duplicate keys.
* JS numbers are modelled by `JsNum`: an exact rational for finite doubles plus
  `nan`, `inf`, `ninf`.  Double rounding is not modelled; overflow of string
  conversion to `± 2 ^ 1024` stands in for double overflow to infinity.
* Host-platform collaborators keep their interface shape: `JSON.parse` is a
  function parameter `jsonParse : String → Option JVal` (`none` = throw);
  `fetch` results arrive as `Except JsErr UpstreamResp` (`error` = rejection);
  the edge cache `caches.default` is explicit state (`Caches`); `ctx.waitUntil`
  effects are applied synchronously to that state.
* The single-flight map and the per-request handler steps between `await`
  points run atomically on the JS event loop; they are modelled by an atomic
  step relation `sfStep` on `SFState`.
-/

/-- One JS number as observed by the worker: an exact finite value, `NaN`, or
a signed infinity. -/
inductive JsNum : Type where
  | fin (q : ℚ)
  | nan
  | inf
  | ninf
deriving DecidableEq, Repr

/-- JSON-style JS values: the payloads the worker sees after `JSON.parse`.
Objects are association lists; JS objects never carry duplicate keys, which is
expressed where needed by `nodupKeysRec`. -/
inductive JVal : Type where
  | null
  | bool (b : Bool)
  | num (n : JsNum)
  | str (s : String)
  | arr (xs : List JVal)
  | obj (kvs : List (String × JVal))

/-- `String.prototype.includes`: substring containment. -/
def jsIncludes (s pat : String) : Bool :=
  decide (pat.data <:+: s.data)

/-- `String.prototype.toLowerCase` (ASCII case mapping; the worker only
lowercases ASCII operation names and header values). -/
def jsToLower (s : String) : String := String.mk (s.data.map Char.toLower)

/-- `String.prototype.trim`. -/
def jsTrim (s : String) : String :=
  String.mk (((s.data.dropWhile Char.isWhitespace).reverse.dropWhile Char.isWhitespace).reverse)

/-- `String.prototype.endsWith`. -/
def jsEndsWith (s suffix : String) : Bool := decide (suffix.data <:+ s.data)

/-- `Number.isFinite`. -/
def jsIsFinite : JsNum → Bool
  | .fin _ => true
  | _ => false

/-- `x < y` on JS numbers: any comparison with `NaN` is false. -/
def jsLtB : JsNum → JsNum → Bool
  | .nan, _ => false
  | _, .nan => false
  | .fin a, .fin b => decide (a < b)
  | .fin _, .inf => true
  | .fin _, .ninf => false
  | .inf, _ => false
  | .ninf, .ninf => false
  | .ninf, _ => true

/-- Double overflow threshold used when modelling string-to-number conversion:
finite doubles are below `2 ^ 1024`, larger magnitudes convert to `±Infinity`.
(The exact double rounding boundary is a floating-point detail outside the
model.) -/
def doubleLimit : ℚ := ((2 ^ 1024 : ℕ) : ℚ)

/-- Clip an exact rational to the double-representable range, modelling
overflow of JS number conversion to `±Infinity`. -/
def clipToDouble (q : ℚ) : JsNum :=
  if doubleLimit ≤ q then .inf
  else if q ≤ -doubleLimit then .ninf
  else .fin q

/-- Numeric value of a list of decimal digit characters. -/
def digitsVal (cs : List Char) : Nat :=
  cs.foldl (fun a c => a * 10 + (c.toNat - 48)) 0

/-- Value of one hex/oct/bin digit character, if valid for radix `b`. -/
def radixDigitVal (b : Nat) (c : Char) : Option Nat :=
  let v :=
    if c.isDigit then some (c.toNat - 48)
    else if 'a' ≤ c ∧ c ≤ 'f' then some (c.toNat - 87)
    else if 'A' ≤ c ∧ c ≤ 'F' then some (c.toNat - 55)
    else none
  match v with
  | some n => if n < b then some n else none
  | none => none

/-- Numeric value of a digit string in radix `b` (`none` if empty or if any
character is not a valid digit). -/
def radixVal (b : Nat) : List Char → Option Nat
  | [] => none
  | [c] => radixDigitVal b c
  | c :: rest =>
    match radixDigitVal b c, radixVal b rest with
    | some d, some r => some (d * b ^ rest.length + r)
    | _, _ => none

/-- Decimal part of JS `Number(string)` conversion, after an optional sign has
been consumed: either the literal `Infinity` or a decimal literal
`digits [. digits] [e|E [sign] digits]`; anything else is `NaN`. -/
def parseDecTail (sgn : Int) (cs : List Char) : JsNum :=
  if cs = "Infinity".data then (if 0 ≤ sgn then .inf else .ninf)
  else
    let p1 := cs.span Char.isDigit
    let ds := p1.1
    let p2 : List Char × List Char :=
      match p1.2 with
      | '.' :: r => r.span Char.isDigit
      | _ => ([], p1.2)
    let fs := p2.1
    let rest2 := p2.2
    if ds = [] ∧ fs = [] then .nan
    else
      let mantissa : ℚ := (sgn : ℚ) *
        ((digitsVal ds : ℚ) + (digitsVal fs : ℚ) / (10 : ℚ) ^ fs.length)
      match rest2 with
      | [] => clipToDouble mantissa
      | 'e' :: r => parseExpTail mantissa r
      | 'E' :: r => parseExpTail mantissa r
      | _ => .nan
where
  /-- Exponent tail `[sign] digits` applied to an already parsed mantissa. -/
  parseExpTail (mantissa : ℚ) (r : List Char) : JsNum :=
    let (esgn, r') : Int × List Char :=
      match r with
      | '+' :: r2 => (1, r2)
      | '-' :: r2 => (-1, r2)
      | _ => (1, r)
    let (eds, rest) := r'.span Char.isDigit
    if eds = [] ∨ rest ≠ [] then .nan
    else clipToDouble (mantissa * (10 : ℚ) ^ (esgn * (digitsVal eds : Int)))

/-- JS `Number(string)` on an already trimmed, non-empty string: radix
prefixes `0x`/`0o`/`0b` (no sign allowed), otherwise an optionally signed
decimal literal or `Infinity`. -/
def parseJsNumber (cs : List Char) : JsNum :=
  match cs with
  | '0' :: 'x' :: rest => (radixVal 16 rest).elim JsNum.nan (fun n => clipToDouble (n : ℚ))
  | '0' :: 'X' :: rest => (radixVal 16 rest).elim JsNum.nan (fun n => clipToDouble (n : ℚ))
  | '0' :: 'o' :: rest => (radixVal 8 rest).elim JsNum.nan (fun n => clipToDouble (n : ℚ))
  | '0' :: 'O' :: rest => (radixVal 8 rest).elim JsNum.nan (fun n => clipToDouble (n : ℚ))
  | '0' :: 'b' :: rest => (radixVal 2 rest).elim JsNum.nan (fun n => clipToDouble (n : ℚ))
  | '0' :: 'B' :: rest => (radixVal 2 rest).elim JsNum.nan (fun n => clipToDouble (n : ℚ))
  | '+' :: rest => parseDecTail 1 rest
  | '-' :: rest => parseDecTail (-1) rest
  | _ => parseDecTail 1 cs

/-- JS `Number(string)`: trim, empty ↦ `0`, otherwise parse the whole string
as a numeric literal (`NaN` on failure). -/
def jsStringToNumber (s : String) : JsNum :=
  let t := jsTrim s
  if t = "" then .fin 0 else parseJsNumber t.data

/-- Decimal string of a non-negative rational whose denominator divides a
power of ten (the only finite values producible by this model's number
parser); other denominators fall back to a fraction rendering.  JS exponent
notation for very large/small magnitudes is not modelled. -/
def ratDecimalRepr (q : ℚ) : String :=
  if q.den = 1 then toString q.num
  else
    match (List.range 1200).find? (fun k => (q * (10 : ℚ) ^ k).den = 1) with
    | some k =>
      let total := (q * (10 : ℚ) ^ k).num.natAbs
      let ip := total / 10 ^ k
      let fr := total % 10 ^ k
      let frs := toString fr
      let pad := String.mk (List.replicate (k - frs.length) '0')
      toString ip ++ "." ++ pad ++ frs
    | none => toString q.num ++ "/" ++ toString q.den

/-- JS `String(number)`. -/
def jsStringOfNumber : JsNum → String
  | .nan => "NaN"
  | .inf => "Infinity"
  | .ninf => "-Infinity"
  | .fin q => if q < 0 then "-" ++ ratDecimalRepr (-q) else ratDecimalRepr q

/-- Number rendering used by `JSON.stringify` (non-finite values serialize as
`null`). -/
def jsonNumberRepr : JsNum → String
  | .fin q => if q < 0 then "-" ++ ratDecimalRepr (-q) else ratDecimalRepr q
  | _ => "null"

-- -------------------- Limits / TTL logic --------------------

/-- `Math.trunc` on a finite JS number: round toward zero. -/
def jsTrunc (q : ℚ) : Int :=
  if 0 ≤ q then Rat.floor q else -(Rat.floor (-q))

/-- `clampInt(n, min, max)` from the source: truncate, then clamp into
`[min, max]`; non-finite numbers clamp to `min`. -/
def clampInt (n : JsNum) (mn mx : Int) : Int :=
  match n with
  | .fin q => min (max (jsTrunc q) mn) mx
  | _ => mn

/-- `clampNumberish(v, min, max)` from the source: numbers are truncated and
clamped; non-empty numeric-looking strings are converted with `Number` and
clamped when finite; everything else (booleans, objects, arrays, null,
unparsable or non-finite strings, empty strings) yields `min`. -/
def clampNumberish (v : JVal) (mn mx : Int) : Int :=
  match v with
  | .num n => clampInt n mn mx
  | .str s =>
    if jsTrim s ≠ "" then
      let n := jsStringToNumber s
      if jsIsFinite n then clampInt n mn mx else mn
    else mn
  | _ => mn

/-- Auxiliary size bound: taking a prefix never increases `sizeOf`. -/
theorem sizeOf_take_le {α : Type} [SizeOf α] : ∀ (n : Nat) (l : List α), sizeOf (l.take n) ≤ sizeOf l := by
  intro n l
  induction l generalizing n with
  | nil => simp
  | cons x t ih =>
    cases n with
    | zero => simp; omega
    | succ m =>
      have := ih m
      simp only [List.take_succ_cons, List.cons.sizeOf_spec]
      omega

mutual

/-- `clampPagination(variables)` from the source, as a function on value
trees: recursively walk every object; keys named `first`/`skip` are replaced
by their clamped numeric value, `ids`/`*Ids` keys holding arrays are truncated
to 200 elements (whose kept elements are still walked), everything else is
walked in place.  Arrays are walked element-wise (their index keys never match
the clamped names). -/
def clampPagination : JVal → JVal
  | .obj kvs => .obj (clampEntries kvs)
  | .arr xs => .arr (clampList xs)
  | v => v
termination_by v => 2 * sizeOf v
decreasing_by
  all_goals simp_wf
  all_goals simp_arith

/-- Walk of one object's entry list for `clampPagination`. -/
def clampEntries : List (String × JVal) → List (String × JVal)
  | [] => []
  | (k, v) :: t => (k, clampEntryValue k v) :: clampEntries t
termination_by l => 2 * sizeOf l
decreasing_by
  all_goals simp_wf
  all_goals simp_arith

/-- New value stored under key `k` by `clampPagination`'s walk: `first` and
`skip` are replaced by clamped numbers; an array under `ids`/`*Ids` is
truncated to 200 walked elements; otherwise the original value is walked. -/
def clampEntryValue (k : String) (v : JVal) : JVal :=
  if k = "first" then .num (.fin ((clampNumberish v 1 200 : Int) : ℚ))
  else if k = "skip" then .num (.fin ((clampNumberish v 0 100000 : Int) : ℚ))
  else
    match v with
    | .arr xs =>
      if k = "ids" || jsEndsWith k "Ids" then .arr (clampList (xs.take 200))
      else clampPagination (.arr xs)
    | w => clampPagination w
termination_by 2 * sizeOf v + 1
decreasing_by
  all_goals simp_wf
  all_goals try simp_arith
  all_goals have := sizeOf_take_le 200 xs
  all_goals omega

/-- Element-wise walk of an array for `clampPagination`. -/
def clampList : List JVal → List JVal
  | [] => []
  | x :: t => clampPagination x :: clampList t
termination_by l => 2 * sizeOf l
decreasing_by
  all_goals simp_wf
  all_goals try simp_arith
  all_goals omega

end

/-- `DEFAULT_TTL_SECONDS` from the source. -/
def DEFAULT_TTL_SECONDS : Nat := 8

/-- `FORCE_FRESH_HEADER` from the source. -/
def FORCE_FRESH_HEADER : String := "x-force-fresh"

/-- `META_CACHE_TTL_SECONDS` from the source (30 minutes). -/
def META_CACHE_TTL_SECONDS : Nat := 30 * 60

/-- `pickTtlSeconds(query)`: TTL routing by case-insensitive substring match
on the lowercased query text, in source order. -/
def pickTtlSeconds (query : String) : Nat :=
  let q := jsToLower query
  if jsIncludes q "query globalfeed" then 3
  else if jsIncludes q "_meta" || jsIncludes q "query __meta" then 3
  else if jsIncludes q "query globalstats" || jsIncludes q "query globalstatsbillboard" then 8
  else if jsIncludes q "query homelotteries" then 8
  else if jsIncludes q "query lotterybyid" then 15
  else if jsIncludes q "query userlotteriesbyuser" then 15
  else if jsIncludes q "query userlotteriesbylottery" then 15
  else if jsIncludes q "query lotteriesbycreator" then 20
  else if jsIncludes q "query lotteriesbyfeerecipient" then 20
  else DEFAULT_TTL_SECONDS

-- -------------------- Stable hashing --------------------

/-- Escape one character the way `JSON.stringify` escapes string contents. -/
def escapeJsonChar (c : Char) : List Char :=
  if c = '"' then ['\\', '"']
  else if c = '\\' then ['\\', '\\']
  else if c = Char.ofNat 8 then ['\\', 'b']
  else if c = Char.ofNat 9 then ['\\', 't']
  else if c = Char.ofNat 10 then ['\\', 'n']
  else if c = Char.ofNat 12 then ['\\', 'f']
  else if c = Char.ofNat 13 then ['\\', 'r']
  else if c.toNat < 32 then
    ['\\', 'u', '0', '0',
      (if c.toNat / 16 < 10 then Char.ofNat (48 + c.toNat / 16) else Char.ofNat (87 + c.toNat / 16)),
      (if c.toNat % 16 < 10 then Char.ofNat (48 + c.toNat % 16) else Char.ofNat (87 + c.toNat % 16))]
  else [c]

/-- `JSON.stringify` rendering of a string literal. -/
def escapeJsonString (s : String) : String :=
  "\"" ++ String.mk (s.data.foldr (fun c acc => escapeJsonChar c ++ acc) []) ++ "\""

mutual

/-- `JSON.stringify` on a `JVal` (object keys in list order; `undefined` and
functions cannot occur in this model). -/
def stringifyJ : JVal → String
  | .null => "null"
  | .bool true => "true"
  | .bool false => "false"
  | .num n => jsonNumberRepr n
  | .str s => escapeJsonString s
  | .arr xs => "[" ++ stringifyElems xs ++ "]"
  | .obj kvs => "\x7b" ++ stringifyFields kvs ++ "\x7d"
termination_by v => 2 * sizeOf v
decreasing_by
  all_goals simp_wf
  all_goals simp_arith

/-- Comma-separated `JSON.stringify` rendering of array elements. -/
def stringifyElems : List JVal → String
  | [] => ""
  | [x] => stringifyJ x
  | x :: t => stringifyJ x ++ "," ++ stringifyElems t
termination_by l => 2 * sizeOf l
decreasing_by
  all_goals simp_wf
  all_goals try simp_arith
  all_goals omega

/-- Comma-separated `JSON.stringify` rendering of object fields. -/
def stringifyFields : List (String × JVal) → String
  | [] => ""
  | [(k, v)] => escapeJsonString k ++ ":" ++ stringifyJ v
  | (k, v) :: t => escapeJsonString k ++ ":" ++ stringifyJ v ++ "," ++ stringifyFields t
termination_by l => 2 * sizeOf l
decreasing_by
  all_goals simp_wf
  all_goals try simp_arith
  all_goals omega

end

/-- Key-order comparison used when rebuilding an object with sorted keys
(`Object.keys(v).sort()` sorts keys as strings). -/
def keyLe (a b : String × JVal) : Prop := a.1 ≤ b.1

instance : DecidableRel keyLe := fun a b => inferInstanceAs (Decidable (a.1 ≤ b.1))

instance : IsTotal (String × JVal) keyLe := ⟨fun a b => le_total a.1 b.1⟩

instance : IsTrans (String × JVal) keyLe := ⟨fun _ _ _ h₁ h₂ => le_trans h₁ h₂⟩

mutual

/-- The recursive `helper` inside `canonicalStringify`: arrays map
element-wise, objects are rebuilt with keys in sorted order before recursing
into values.  (The JS original iterates `Object.keys(v).sort()` and looks
each key up; on JS objects — whose keys are unique — that is the same as
sorting the entry list by key, here after mapping the values.  The
`WeakSet`-based cycle guard is vacuous on inductive, hence acyclic, values.) -/
def canonHelper : JVal → JVal
  | .arr xs => .arr (canonList xs)
  | .obj kvs => .obj (List.insertionSort keyLe (canonEntries kvs))
  | v => v
termination_by v => 2 * sizeOf v
decreasing_by
  all_goals simp_wf
  all_goals simp_arith

/-- Element-wise canonicalization of array elements. -/
def canonList : List JVal → List JVal
  | [] => []
  | x :: t => canonHelper x :: canonList t
termination_by l => 2 * sizeOf l
decreasing_by
  all_goals simp_wf
  all_goals try simp_arith
  all_goals omega

/-- Value-wise canonicalization of object entries. -/
def canonEntries : List (String × JVal) → List (String × JVal)
  | [] => []
  | (k, v) :: t => (k, canonHelper v) :: canonEntries t
termination_by l => 2 * sizeOf l
decreasing_by
  all_goals simp_wf
  all_goals try simp_arith
  all_goals omega

end

/-- `canonicalStringify(value)`: serialize the canonicalized value. -/
def canonicalStringify (value : JVal) : String :=
  stringifyJ (canonHelper value)

/-- UTF-8 encoding of one character, as byte values. -/
def utf8EncodeChar (c : Char) : List Nat :=
  let n := c.toNat
  if n < 0x80 then [n]
  else if n < 0x800 then [0xC0 + n / 64, 0x80 + n % 64]
  else if n < 0x10000 then [0xE0 + n / 4096, 0x80 + n / 64 % 64, 0x80 + n % 64]
  else [0xF0 + n / 262144, 0x80 + n / 4096 % 64, 0x80 + n / 64 % 64, 0x80 + n % 64]

/-- UTF-8 encoding of a string (what `TextEncoder().encode` produces). -/
def utf8Encode (s : String) : List Nat :=
  s.data.foldr (fun c acc => utf8EncodeChar c ++ acc) []

/-- 32-bit right-rotate on a `Nat` below `2 ^ 32`. -/
def rotr32 (x n : Nat) : Nat :=
  (x >>> n) + ((x % 2 ^ n) * 2 ^ (32 - n))

/-- 32-bit addition. -/
def add32 (a b : Nat) : Nat := (a + b) % 4294967296

/-- Bitwise complement below `2 ^ 32`. -/
def not32 (x : Nat) : Nat := 4294967295 - x

/-- SHA-256 round constants (FIPS 180-4), as decimal word values. -/
def sha256K : List Nat :=
  [1116352408, 1899447441, 3049323471, 3921009573, 961987163,
   1508970993, 2453635748, 2870763221, 3624381080, 310598401,
   607225278, 1426881987, 1925078388, 2162078206, 2614888103,
   3248222580, 3835390401, 4022224774, 264347078, 604807628,
   770255983, 1249150122, 1555081692, 1996064986, 2554220882,
   2821834349, 2952996808, 3210313671, 3336571891, 3584528711,
   113926993, 338241895, 666307205, 773529912, 1294757372,
   1396182291, 1695183700, 1986661051, 2177026350, 2456956037,
   2730485921, 2820302411, 3259730800, 3345764771, 3516065817,
   3600352804, 4094571909, 275423344, 430227734, 506948616,
   659060556, 883997877, 958139571, 1322822218, 1537002063,
   1747873779, 1955562222, 2024104815, 2227730452, 2361852424,
   2428436474, 2756734187, 3204031479, 3329325298]

/-- SHA-256 initial hash state (FIPS 180-4), as decimal word values. -/
def sha256H0 : List Nat :=
  [1779033703, 3144134277, 1013904242, 2773480762, 1359893119,
   2600822924, 528734635, 1541459225]

/-- SHA-256 message padding: append `0x80`, zero padding, and the 64-bit
big-endian bit length. -/
def sha256Pad (msg : List Nat) : List Nat :=
  let l := msg.length
  let padLen := (64 - (l + 9) % 64) % 64
  msg ++ [0x80] ++ List.replicate padLen 0 ++
    (List.range 8).map (fun i => ((l * 8) >>> (8 * (7 - i))) % 256)

/-- Split a padded message into 64-byte blocks. -/
def sha256Blocks (l : List Nat) : List (List Nat) :=
  if l = [] then [] else l.take 64 :: sha256Blocks (l.drop 64)
termination_by l.length
decreasing_by
  simp_wf
  rename_i h
  have : l.length ≠ 0 := fun hl => h (List.eq_nil_of_length_eq_zero hl)
  simp [List.length_drop]
  omega

/-- The 16 initial 32-bit message-schedule words of one block. -/
def sha256Words (b : List Nat) : List Nat :=
  (List.range 16).map (fun i =>
    b.getD (4 * i) 0 * 16777216 + b.getD (4 * i + 1) 0 * 65536 +
    b.getD (4 * i + 2) 0 * 256 + b.getD (4 * i + 3) 0)

/-- Extend the 16 message-schedule words to 64. -/
def sha256Schedule (b : List Nat) : List Nat :=
  (List.range 48).foldl
    (fun w _ =>
      let n := w.length
      let w15 := w.getD (n - 15) 0
      let w2 := w.getD (n - 2) 0
      let s0 := (rotr32 w15 7) ^^^ (rotr32 w15 18) ^^^ (w15 >>> 3)
      let s1 := (rotr32 w2 17) ^^^ (rotr32 w2 19) ^^^ (w2 >>> 10)
      w ++ [add32 (add32 (w.getD (n - 16) 0) s0) (add32 (w.getD (n - 7) 0) s1)])
    (sha256Words b)

/-- SHA-256 compression of one 64-byte block into the running state. -/
def sha256Compress (h : List Nat) (b : List Nat) : List Nat :=
  let w := sha256Schedule b
  let fin := (List.range 64).foldl
    (fun st i =>
      let a := st.getD 0 0
      let bb := st.getD 1 0
      let c := st.getD 2 0
      let d := st.getD 3 0
      let e := st.getD 4 0
      let f := st.getD 5 0
      let g := st.getD 6 0
      let hh := st.getD 7 0
      let s1 := (rotr32 e 6) ^^^ (rotr32 e 11) ^^^ (rotr32 e 25)
      let ch := (e &&& f) ^^^ (not32 e &&& g)
      let t1 := add32 (add32 hh s1) (add32 (add32 ch (sha256K.getD i 0)) (w.getD i 0))
      let s0 := (rotr32 a 2) ^^^ (rotr32 a 13) ^^^ (rotr32 a 22)
      let mj := (a &&& bb) ^^^ (a &&& c) ^^^ (bb &&& c)
      let t2 := add32 s0 mj
      [add32 t1 t2, a, bb, c, add32 d t1, e, f, g])
    h
  List.zipWith add32 h fin

/-- SHA-256 digest bytes of a byte list. -/
def sha256Bytes (msg : List Nat) : List Nat :=
  let final := (sha256Blocks (sha256Pad msg)).foldl sha256Compress sha256H0
  final.foldr (fun wd acc => [wd / 16777216 % 256, wd / 65536 % 256, wd / 256 % 256, wd % 256] ++ acc) []

/-- One lowercase hex digit. -/
def hexDigit (n : Nat) : Char :=
  if n < 10 then Char.ofNat (48 + n) else Char.ofNat (87 + n)

/-- `sha256Hex(input)` from the source: SHA-256 of the UTF-8 bytes of the
input, rendered as lowercase hex (two digits per byte). -/
def sha256Hex (input : String) : String :=
  String.mk ((sha256Bytes (utf8Encode input)).foldr
    (fun b acc => hexDigit (b / 16) :: hexDigit (b % 16) :: acc) [])

-- -------------------- Worker model: responses, caches, upstream --------------------

/-- A thrown JS error, reduced to its message (the only part the worker
inspects). -/
structure JsErr : Type where
  message : String
deriving DecidableEq, Repr

/-- `isAbortTimeout(e)`: the stringified error message, lowercased, contains
`timeout`. -/
def isAbortTimeout (e : JsErr) : Bool :=
  jsIncludes (jsToLower e.message) "timeout"

/-- A settled upstream `fetch` + `text()` result: status, `res.ok`, optional
`content-type` header, and body text. -/
structure UpstreamResp : Type where
  status : Nat
  ok : Bool
  contentType : Option String
  text : String
deriving DecidableEq, Repr

/-- `InflightValue` from the source: the plain-data outcome shared by all
coalesced waiters. -/
structure InflightValue : Type where
  status : Nat
  contentType : String
  text : String
  ok : Bool
deriving DecidableEq, Repr

/-- A built `Response`: status, header list (set-semantics), body text. -/
structure Response : Type where
  status : Nat
  headers : List (String × String)
  body : String
deriving DecidableEq, Repr

/-- `Headers.set`: replace any same-named header (header names are
case-insensitive). -/
def setHeader (hs : List (String × String)) (k v : String) : List (String × String) :=
  hs.filter (fun p => jsToLower p.1 ≠ jsToLower k) ++ [(k, v)]

/-- `headers.get`: first header with the given (case-insensitive) name. -/
def getHeader (hs : List (String × String)) (k : String) : Option String :=
  (hs.find? (fun p => jsToLower p.1 = jsToLower k)).map Prod.snd

/-- `addHeaders(res, extra)` from the source: clone and set each extra
header. -/
def addHeaders (res : Response) (extra : List (String × String)) : Response :=
  { res with headers := extra.foldl (fun hs p => setHeader hs p.1 p.2) res.headers }

/-- `withCors(res)` from the source: set the three CORS headers and strip
`origin` from any `Vary` header. -/
def withCors (res : Response) : Response :=
  let hs := setHeader (setHeader (setHeader res.headers
    "Access-Control-Allow-Origin" "*")
    "Access-Control-Allow-Methods" "POST, OPTIONS, GET")
    "Access-Control-Allow-Headers" "Content-Type, X-Force-Fresh"
  let hs' :=
    match getHeader hs "Vary" with
    | some vary =>
      if jsIncludes (jsToLower vary) "origin" then
        let cleaned := String.intercalate ", "
          (((vary.splitOn ",").map jsTrim).filter (fun t => jsToLower t ≠ "origin"))
        if cleaned ≠ "" then setHeader hs "Vary" cleaned
        else hs.filter (fun p => jsToLower p.1 ≠ "vary")
      else hs
    | none => hs
  { res with headers := hs' }

/-- `cacheControlEdgeOnly(ttl)` from the source. -/
def cacheControlEdgeOnly (ttl : Nat) : String :=
  "public, max-age=0, s-maxage=" ++ toString ttl ++ ", stale-while-revalidate=" ++ toString ttl

/-- `cacheControlMeta(ttl)` from the source. -/
def cacheControlMeta (ttl : Nat) : String :=
  "public, max-age=0, s-maxage=" ++ toString ttl ++ ", stale-while-revalidate=" ++ toString (min 30 ttl)

/-- `makeTextResponse(v, ttl, xCache)` from the source. -/
def makeTextResponse (v : InflightValue) (ttl : Nat) (xCache : String) : Response :=
  let cc := cacheControlEdgeOnly ttl
  { status := v.status
    headers := [("content-type", v.contentType), ("Cache-Control", cc),
                ("CDN-Cache-Control", cc), ("X-Cache", xCache)]
    body := v.text }

/-- A plain `new Response(body, status)` with no explicit headers. -/
def textResponse (status : Nat) (body : String) : Response :=
  { status := status, headers := [], body := body }

/-- URL components retained by the model (`new URL(...)`). -/
structure UrlParts : Type where
  scheme : String
  host : String
  pathname : String
  search : String
deriving DecidableEq, Repr

/-- Rendering of a `UrlParts` back to a URL string (cache entries are keyed
by it). -/
def urlToString (u : UrlParts) : String :=
  u.scheme ++ "://" ++ u.host ++ u.pathname ++ u.search

/-- The edge cache `caches.default`, split into response entries and
meta-guard progress records, both keyed by request URL string. -/
structure Caches : Type where
  resp : List (String × Response)
  meta : List (String × String)
deriving DecidableEq, Repr

/-- First-match association lookup (cache entries are prepended, so the first
match is the most recent `put`). -/
def lookupStore {α : Type} (l : List (String × α)) (k : String) : Option α :=
  (l.find? (fun p => p.1 = k)).map Prod.snd

/-- `cache.put`: the new entry shadows any older entry for the same key. -/
def putStore {α : Type} (l : List (String × α)) (k : String) (v : α) : List (String × α) :=
  (k, v) :: l

/-- JS property access `o?.[k]` on a parsed JSON value: objects yield the
named field, everything else yields `undefined` (here `none`). -/
def getField : JVal → String → Option JVal
  | .obj kvs, k => lookupStore kvs k
  | _, _ => none

/-- Top-level `errors` detection: `parsed && typeof parsed === "object" &&
"errors" in parsed`.  Arrays are objects in JS but have no `errors` property;
primitives and `null` fail the guard. -/
def isErrorsPayload : JVal → Bool
  | .obj kvs => (kvs.map Prod.fst).contains "errors"
  | _ => false

/-- The cacheability decision of the source (lines 188–197): only `ok`
responses, and if the content type indicates JSON the body must parse and the
parse must not be an object with a top-level `errors` field. -/
def okToCache (jsonParse : String → Option JVal) (v : InflightValue) : Bool :=
  v.ok &&
    (if jsIncludes v.contentType "application/json" then
      match jsonParse v.text with
      | some parsed => !isErrorsPayload parsed
      | none => false
    else true)

/-- The `InflightValue` produced by the `catch` branch of the in-flight
worker closure: a failure-valued outcome, never a rejected future. -/
def failureValue (e : JsErr) : InflightValue :=
  { status := if isAbortTimeout e then 504 else 502
    contentType := "application/json"
    text := stringifyJ (.obj [("error", .str (if isAbortTimeout e then "UPSTREAM_TIMEOUT" else "UPSTREAM_FETCH_FAILED")),
                              ("message", .str e.message)])
    ok := false }

/-- Normalization of a settled upstream response into an `InflightValue`
(lines 178–186): missing content type defaults to `application/json`. -/
def buildUpstreamValue (r : UpstreamResp) : InflightValue :=
  { status := r.status
    contentType := r.contentType.getD "application/json"
    text := r.text
    ok := r.ok }

-- -------------------- Meta-guard --------------------

/-- The fixed URL the source parses inside `shouldWriteThroughCacheMetaGuard`. -/
def exampleInvalidGraphql : UrlParts :=
  { scheme := "https", host := "example.invalid", pathname := "/graphql", search := "" }

/-- `metaKeyUrlFrom(reqUrl, hashKey)` from the source: same origin, pathname
`/__meta/<hashKey>`, empty query string. -/
def metaKeyUrlFrom (reqUrl : UrlParts) (hashKey : String) : UrlParts :=
  { reqUrl with pathname := "/__meta/" ++ hashKey, search := "" }

/-- `parseMetaBlockFromJsonText(text)` from the source: follow
`data._meta.block.number`; a number passes through, a non-empty string is
converted with `Number` and kept only when finite; anything else (or a parse
failure) is `null`. -/
def parseMetaBlockFromJsonText (jsonParse : String → Option JVal) (text : String) : Option JsNum :=
  match jsonParse text with
  | none => none
  | some j =>
    match ((((getField j "data").bind (fun d => getField d "_meta")).bind
        (fun m => getField m "block")).bind (fun b => getField b "number")) with
    | some (.num n) => some n
    | some (.str s) =>
      if jsTrim s ≠ "" then
        let k := jsStringToNumber s
        if jsIsFinite k then some k else none
      else none
    | _ => none

/-- `fetchSubgraphMetaBlock(env)` from the source, with the settled probe
call supplied as data: a rejected fetch or non-ok status yields `null`. -/
def fetchSubgraphMetaBlock (jsonParse : String → Option JVal)
    (probe : Except JsErr UpstreamResp) : Option JsNum :=
  match probe with
  | .error _ => none
  | .ok r => if !r.ok then none else parseMetaBlockFromJsonText jsonParse r.text

/-- `shouldWriteThroughCacheMetaGuard(env, cache, hashKey)` from the source:
fail closed when no usable new counter; read the recorded counter from the
meta store (`Number(text)`, kept only when finite); refuse when the new
counter is strictly below the recorded one; otherwise record the new counter
and accept.  (The stored meta `Response` carries only its body text in this
model; its cache-control headers do not affect any claim.) -/
def shouldWriteThroughCacheMetaGuard (jsonParse : String → Option JVal)
    (probe : Except JsErr UpstreamResp) (hashKey : String) (st : Caches) : Bool × Caches :=
  match fetchSubgraphMetaBlock jsonParse probe with
  | none => (false, st)
  | some newMeta =>
    let metaReq := urlToString (metaKeyUrlFrom exampleInvalidGraphql hashKey)
    let oldMeta : Option JsNum :=
      match lookupStore st.meta metaReq with
      | some txt =>
        let n := jsStringToNumber txt
        if jsIsFinite n then some n else none
      | none => none
    if (match oldMeta with | some o => jsLtB newMeta o | none => false) then (false, st)
    else (true, { st with meta := putStore st.meta metaReq (jsStringOfNumber newMeta) })

-- -------------------- Key derivation and the in-flight worker --------------------

/-- The hashed cache key (lines 124–130): SHA-256 of the canonical encoding of
the literal object `\x7bv: 7, query, variables\x7d` (the `variables` passed in
are the ones already mutated by `clampPagination`). -/
def deriveHashKey (query : String) (vars : JVal) : String :=
  sha256Hex (canonicalStringify (.obj [("v", .num (.fin 7)), ("query", .str query),
    ("variables", vars)]))

/-- The synthetic cache lookup address (lines 132–137): keep the request
URL's origin, overwrite the pathname with `/__cache/<hashKey>` and strip the
query string entirely. -/
def deriveCacheReqUrl (reqUrl : UrlParts) (hashKey : String) : UrlParts :=
  { reqUrl with pathname := "/__cache/" ++ hashKey, search := "" }

/-- Combined key/address derivation as the pipeline performs it: clamp the
variables, hash, build the synthetic GET address. -/
def deriveKeyAndCacheReq (reqUrl : UrlParts) (query : String) (vars : JVal) :
    String × UrlParts :=
  let hashKey := deriveHashKey query (clampPagination vars)
  (hashKey, deriveCacheReqUrl reqUrl hashKey)

/-- The in-flight worker closure (lines 166–233) with its settled upstream
call supplied as data: on success, normalize the response, decide
cacheability, and write through the response cache — gated by the meta-guard
when the request was forced-fresh; on failure, produce a failure-valued
outcome and touch nothing.  Returns the outcome and the updated cache state
(`ctx.waitUntil(cache.put(...))` applied synchronously). -/
def runWork (jsonParse : String → Option JVal) (forceFresh : Bool)
    (upstream probe : Except JsErr UpstreamResp) (ttl : Nat)
    (cacheReqUrl hashKey : String) (st : Caches) : InflightValue × Caches :=
  match upstream with
  | .error e => (failureValue e, st)
  | .ok r =>
    let v := buildUpstreamValue r
    if okToCache jsonParse v then
      if forceFresh then
        match shouldWriteThroughCacheMetaGuard jsonParse probe hashKey st with
        | (true, st') =>
          (v, { st' with resp := putStore st'.resp cacheReqUrl (makeTextResponse v ttl "BYPASS_WRITE") })
        | (false, st') => (v, st')
      else
        (v, { st with resp := putStore st.resp cacheReqUrl (makeTextResponse v ttl "MISS") })
    else (v, st)

-- -------------------- Request pipeline --------------------

/-- `Env` from the source (`SUBGRAPH_URL` may be the empty string, which the
worker treats as missing). -/
structure EnvModel : Type where
  SUBGRAPH_URL : String
deriving DecidableEq, Repr

/-- The parts of an incoming `Request` the worker reads.  `urlResult` and
`textResult` are `Except` because `new URL(req.url)` and `req.text()` are the
two awaited/constructed steps outside any `try` that can throw. -/
structure RequestModel : Type where
  method : String
  urlResult : Except JsErr UrlParts
  forceFreshHeader : Option String
  acrHeaders : Option String
  acrMethod : Option String
  textResult : Except JsErr String

/-- The host-environment behavior for one request: the `JSON.parse`
implementation, the settled results of the (at most three) upstream calls,
whether `cache.match` throws, and the result another in-flight request for
the same key would deliver (`none` when the single-flight map has no slot).
Concurrency among requests themselves is modelled separately by `SFState`. -/
structure Oracle : Type where
  jsonParse : String → Option JVal
  metaEndpointUpstream : Except JsErr UpstreamResp
  upstream : Except JsErr UpstreamResp
  probeUpstream : Except JsErr UpstreamResp
  cacheMatchThrows : Bool
  existingInflight : Option InflightValue

/-- `handleOptions(req)` from the source. -/
def handleOptions (req : RequestModel) : Response :=
  let reqHeaders := req.acrHeaders.getD "content-type"
  let reqMethod := req.acrMethod.getD "POST"
  { status := 204
    headers := [("Access-Control-Allow-Origin", "*"),
                ("Access-Control-Allow-Methods", "POST, OPTIONS, GET, " ++ reqMethod),
                ("Access-Control-Allow-Headers", reqHeaders),
                ("Access-Control-Max-Age", "86400")]
    body := "" }

/-- The `/meta` endpoint branch (lines 41–87): edge-only cache-control with a
3-second TTL; a rejected upstream call maps to 504 (timeout) or 502. -/
def metaEndpoint (o : Oracle) (env : EnvModel) : Response :=
  if env.SUBGRAPH_URL = "" then withCors (textResponse 500 "Missing SUBGRAPH_URL")
  else
    let cc := cacheControlEdgeOnly 3
    match o.metaEndpointUpstream with
    | .ok r =>
      withCors { status := r.status
                 headers := [("content-type", r.contentType.getD "application/json"),
                             ("Cache-Control", cc), ("CDN-Cache-Control", cc), ("X-Cache", "MISS")]
                 body := r.text }
    | .error e =>
      withCors { status := if isAbortTimeout e then 504 else 502
                 headers := [("content-type", "application/json")]
                 body := stringifyJ (.obj [("error", .str "UPSTREAM_FETCH_FAILED"),
                                           ("message", .str e.message)]) }

/-- Whether a parsed body field counts as usable `variables`:
`body?.variables && typeof body.variables === "object"` (arrays included,
`null` excluded by truthiness). -/
def isObjectLike : JVal → Bool
  | .obj _ => true
  | .arr _ => true
  | _ => false

/-- The body of the `fetch` handler inside its outermost `try` (lines
30–239): everything except the final catch-all.  An `Except.error` escaping
here is precisely an unexpected failure reaching the outer boundary. -/
def fetchPipeline (o : Oracle) (req : RequestModel) (env : EnvModel) (st : Caches) :
    Except JsErr (Response × Caches) := do
  if req.method = "OPTIONS" then return (handleOptions req, st)
  let url ← req.urlResult
  if url.pathname = "/health" then return (withCors (textResponse 200 "ok"), st)
  if url.pathname = "/meta" then return (metaEndpoint o env, st)
  if url.pathname ≠ "/graphql" then return (withCors (textResponse 404 "Not found"), st)
  if req.method ≠ "POST" then return (withCors (textResponse 405 "Method not allowed"), st)
  if env.SUBGRAPH_URL = "" then return (withCors (textResponse 500 "Missing SUBGRAPH_URL"), st)
  let forceFresh := jsTrim (req.forceFreshHeader.getD "") = "1"
  let raw ← req.textResult
  match (if raw = "" then some (JVal.obj []) else o.jsonParse raw) with
  | none => return (withCors (textResponse 400 "Bad JSON"), st)
  | some body =>
    let query := match getField body "query" with
      | some (.str s) => s
      | _ => ""
    let vars := match getField body "variables" with
      | some v => if isObjectLike v then v else .obj []
      | none => .obj []
    if query = "" then return (withCors (textResponse 400 "Missing query"), st)
    if query.length > 60000 then return (withCors (textResponse 413 "Query too large"), st)
    let ttl := pickTtlSeconds query
    let kc := deriveKeyAndCacheReq url query vars
    let hashKey := kc.1
    let cacheReq := kc.2
    if !forceFresh && !o.cacheMatchThrows then
      match lookupStore st.resp (urlToString cacheReq) with
      | some cached =>
        let cc := cacheControlEdgeOnly ttl
        return (withCors (addHeaders cached
          [("Cache-Control", cc), ("CDN-Cache-Control", cc), ("X-Cache", "HIT")]), st)
      | none => pure ()
    match o.existingInflight with
    | some v =>
      return (withCors (makeTextResponse v ttl (if forceFresh then "COALESCED_BYPASS" else "COALESCED")), st)
    | none =>
      let r := runWork o.jsonParse forceFresh o.upstream o.probeUpstream ttl
        (urlToString cacheReq) hashKey st
      return (withCors (makeTextResponse r.1 ttl (if forceFresh then "BYPASS" else "MISS")), r.2)

/-- The generic internal-error response built by the outermost catch
(lines 240–250). -/
def internalErrorResponse (e : JsErr) : Response :=
  { status := 500
    headers := [("content-type", "application/json")]
    body := stringifyJ (.obj [("error", .str "WORKER_INTERNAL_ERROR"), ("message", .str e.message)]) }

/-- The full `fetch` handler: the pipeline under its outermost try/catch. -/
def fetchHandler (o : Oracle) (req : RequestModel) (env : EnvModel) (st : Caches) :
    Response × Caches :=
  match fetchPipeline o req env st with
  | .ok rc => rc
  | .error e => (withCors (internalErrorResponse e), st)

-- -------------------- Single-flight coalescing --------------------

/-- Process-local single-flight state: the `inflight` map (key ↦ ids of the
requests awaiting that slot, the dispatcher included), the number of upstream
dispatches performed so far, and the outcomes delivered to requesters. -/
structure SFState : Type where
  slots : List (String × List Nat)
  calls : Nat
  delivered : List (Nat × InflightValue)
deriving DecidableEq, Repr

/-- The empty single-flight state (fresh isolate, no requests served). -/
def sfEmpty : SFState := { slots := [], calls := 0, delivered := [] }

/-- Atomic single-flight events, mirroring the event-loop execution of lines
158–237: `arrive k rid` is one request reaching the dedupe step for key `k`
(the `inflight.get`/`inflight.set` pair runs without an intervening await);
`complete k v` is the settled in-flight promise delivering `v` to every
waiter and running its `finally` deletion. -/
inductive SFEvent : Type where
  | arrive (k : String) (rid : Nat)
  | complete (k : String) (v : InflightValue)

/-- Look up a key's waiter list in the single-flight map. -/
def lookupSlot (slots : List (String × List Nat)) (k : String) : Option (List Nat) :=
  (slots.find? (fun p => p.1 = k)).map Prod.snd

/-- One atomic single-flight step.  An arrival joins an existing slot without
dispatching; otherwise it creates the slot and dispatches one upstream call.
Completion delivers the same outcome to every waiter of the key and removes
the slot (the `finally` handler), whether the outcome was a success or a
failure value. -/
def sfStep (st : SFState) (ev : SFEvent) : SFState :=
  match ev with
  | .arrive k rid =>
    match lookupSlot st.slots k with
    | some _ =>
      { st with slots := st.slots.map (fun p => if p.1 = k then (p.1, p.2 ++ [rid]) else p) }
    | none =>
      { st with slots := (k, [rid]) :: st.slots, calls := st.calls + 1 }
  | .complete k v =>
    match lookupSlot st.slots k with
    | some ws =>
      { slots := st.slots.filter (fun p => p.1 ≠ k)
        calls := st.calls
        delivered := st.delivered ++ ws.map (fun r => (r, v)) }
    | none => st

/-- Run a sequence of single-flight events. -/
def sfRun (st : SFState) (evs : List SFEvent) : SFState :=
  evs.foldl sfStep st

-- -------------------- Specification-side predicates --------------------

/-- Range check used to state the clamp guarantee: the value is a finite
number within `[mn, mx]`. -/
def numInRange (v : JVal) (mn mx : ℚ) : Bool :=
  match v with
  | .num (.fin q) => decide (mn ≤ q ∧ q ≤ mx)
  | _ => false

mutual

/-- All pagination bounds hold everywhere in a value tree: every `first` is a
finite number in `[1, 200]`, every `skip` a finite number in `[0, 100000]`,
and every array under `ids`/`*Ids` has at most 200 elements. -/
def clampOkB : JVal → Bool
  | .obj kvs => clampOkEntries kvs
  | .arr xs => clampOkList xs
  | _ => true
termination_by v => 2 * sizeOf v
decreasing_by
  all_goals simp_wf
  all_goals simp_arith

/-- `clampOkB` over an object's entries. -/
def clampOkEntries : List (String × JVal) → Bool
  | [] => true
  | (k, v) :: t => clampOkEntry k v && clampOkEntries t
termination_by l => 2 * sizeOf l
decreasing_by
  all_goals simp_wf
  all_goals try simp_arith
  all_goals omega

/-- `clampOkB` for a single entry. -/
def clampOkEntry (k : String) (v : JVal) : Bool :=
  (if k = "first" then numInRange v 1 200 else true) &&
  ((if k = "skip" then numInRange v 0 100000 else true) &&
  ((if k = "ids" || jsEndsWith k "Ids" then
      match v with
      | .arr xs => decide (xs.length ≤ 200)
      | _ => true
    else true) &&
  clampOkB v))
termination_by 2 * sizeOf v + 1
decreasing_by
  all_goals simp_wf
  all_goals simp_arith

/-- `clampOkB` over array elements. -/
def clampOkList : List JVal → Bool
  | [] => true
  | x :: t => clampOkB x && clampOkList t
termination_by l => 2 * sizeOf l
decreasing_by
  all_goals simp_wf
  all_goals try simp_arith
  all_goals omega

end

mutual

/-- Two values differ only in the insertion order of object keys, recursively
(the hypothesis of the canonicalization order-independence property). -/
inductive SameUpToOrder : JVal → JVal → Prop where
  | null : SameUpToOrder .null .null
  | bool (b : Bool) : SameUpToOrder (.bool b) (.bool b)
  | num (n : JsNum) : SameUpToOrder (.num n) (.num n)
  | str (s : String) : SameUpToOrder (.str s) (.str s)
  | arr {xs ys : List JVal} : SameListUpToOrder xs ys → SameUpToOrder (.arr xs) (.arr ys)
  | obj {kvs mid kvs2 : List (String × JVal)} :
      kvs.Perm mid → SameEntriesUpToOrder mid kvs2 → SameUpToOrder (.obj kvs) (.obj kvs2)

/-- Element-wise `SameUpToOrder` on lists. -/
inductive SameListUpToOrder : List JVal → List JVal → Prop where
  | nil : SameListUpToOrder [] []
  | cons {x y : JVal} {xs ys : List JVal} :
      SameUpToOrder x y → SameListUpToOrder xs ys → SameListUpToOrder (x :: xs) (y :: ys)

/-- Position-wise relation on entry lists: equal keys, values related by
`SameUpToOrder`. -/
inductive SameEntriesUpToOrder : List (String × JVal) → List (String × JVal) → Prop where
  | nil : SameEntriesUpToOrder [] []
  | cons {k : String} {v w : JVal} {t₁ t₂ : List (String × JVal)} :
      SameUpToOrder v w → SameEntriesUpToOrder t₁ t₂ →
      SameEntriesUpToOrder ((k, v) :: t₁) ((k, w) :: t₂)

end

mutual

/-- Every object in the tree has pairwise-distinct keys — automatically true
of values obtained from JS objects. -/
def nodupKeysRec : JVal → Bool
  | .obj kvs => decide ((kvs.map Prod.fst).Nodup) && nodupEntriesRec kvs
  | .arr xs => nodupListRec xs
  | _ => true
termination_by v => 2 * sizeOf v
decreasing_by
  all_goals simp_wf
  all_goals simp_arith

/-- `nodupKeysRec` over an object's entry values. -/
def nodupEntriesRec : List (String × JVal) → Bool
  | [] => true
  | (_, v) :: t => nodupKeysRec v && nodupEntriesRec t
termination_by l => 2 * sizeOf l
decreasing_by
  all_goals simp_wf
  all_goals try simp_arith
  all_goals omega

/-- `nodupKeysRec` over array elements. -/
def nodupListRec : List JVal → Bool
  | [] => true
  | x :: t => nodupKeysRec x && nodupListRec t
termination_by l => 2 * sizeOf l
decreasing_by
  all_goals simp_wf
  all_goals try simp_arith
  all_goals omega

end

-- -------------------- Concrete sample inputs --------------------

/-- A sample `JSON.parse` behavior: every body parses to
`\x7bdata: \x7b_meta: \x7bblock: \x7bnumber: 3\x7d\x7d\x7d\x7d` (used to
exercise the meta-guard at a concrete input). -/
def c1ParseW : String → Option JVal := fun _ =>
  some (.obj [("data", .obj [("_meta", .obj [("block", .obj [("number", .num (.fin 3))])])])])

/-- A sample successful probe response. -/
def c1ProbeRespW : UpstreamResp :=
  { status := 200, ok := true, contentType := some "application/json", text := "t" }

/-- A sample cache state with recorded progress counter `5` for key `k`. -/
def c1StW : Caches :=
  { resp := [("https://h/__cache/k", textResponse 200 "old")],
    meta := [("https://example.invalid/__meta/k", "5")] }

-- ==================== Theorems ====================

-- Constructor-level unfolding lemmas for the walk functions.

theorem clampPagination_null : clampPagination .null = .null := by rw [clampPagination.eq_def]

theorem clampPagination_bool (b : Bool) : clampPagination (.bool b) = .bool b := by
  rw [clampPagination.eq_def]

theorem clampPagination_num (m : JsNum) : clampPagination (.num m) = .num m := by
  rw [clampPagination.eq_def]

theorem clampPagination_str (s : String) : clampPagination (.str s) = .str s := by
  rw [clampPagination.eq_def]

theorem clampPagination_arr (xs : List JVal) : clampPagination (.arr xs) = .arr (clampList xs) := by
  rw [clampPagination.eq_def]

theorem clampPagination_obj (kvs : List (String × JVal)) :
    clampPagination (.obj kvs) = .obj (clampEntries kvs) := by
  rw [clampPagination.eq_def]

theorem clampOkB_null : clampOkB .null = true := by rw [clampOkB.eq_def]

theorem clampOkB_bool (b : Bool) : clampOkB (.bool b) = true := by rw [clampOkB.eq_def]

theorem clampOkB_num (m : JsNum) : clampOkB (.num m) = true := by rw [clampOkB.eq_def]

theorem clampOkB_str (s : String) : clampOkB (.str s) = true := by rw [clampOkB.eq_def]

theorem clampOkB_arr (xs : List JVal) : clampOkB (.arr xs) = clampOkList xs := by
  rw [clampOkB.eq_def]

theorem clampOkB_obj (kvs : List (String × JVal)) : clampOkB (.obj kvs) = clampOkEntries kvs := by
  rw [clampOkB.eq_def]

theorem clampList_map (xs : List JVal) : clampList xs = xs.map clampPagination := by
  induction xs with
  | nil => simp [clampList]
  | cons x t ih => simp [clampList, ih]

theorem clampEntries_map (l : List (String × JVal)) :
    clampEntries l = l.map (fun p => (p.1, clampEntryValue p.1 p.2)) := by
  induction l with
  | nil => simp [clampEntries]
  | cons p t ih => cases p; simp [clampEntries, ih]

theorem clampOkList_all (xs : List JVal) : clampOkList xs = xs.all clampOkB := by
  induction xs with
  | nil => simp [clampOkList]
  | cons x t ih => simp [clampOkList, ih]

theorem clampOkEntries_all (l : List (String × JVal)) :
    clampOkEntries l = l.all (fun p => clampOkEntry p.1 p.2) := by
  induction l with
  | nil => simp [clampOkEntries]
  | cons p t ih => cases p; simp [clampOkEntries, ih]

theorem clampInt_le (n : JsNum) (mn mx : Int) (h : mn ≤ mx) :
    mn ≤ clampInt n mn mx ∧ clampInt n mn mx ≤ mx := by
  cases n <;> simp [clampInt] <;> omega

theorem clampNumberish_bounds (v : JVal) (mn mx : Int) (h : mn ≤ mx) :
    mn ≤ clampNumberish v mn mx ∧ clampNumberish v mn mx ≤ mx := by
  cases v with
  | num n => exact clampInt_le n mn mx h
  | str s =>
    simp only [clampNumberish]
    split_ifs with h1 h2
    · exact clampInt_le _ mn mx h
    · omega
    · omega
  | null => simp [clampNumberish]; omega
  | bool b => simp [clampNumberish]; omega
  | arr xs => simp [clampNumberish]; omega
  | obj kvs => simp [clampNumberish]; omega

theorem clampOkEntry_clampEntryValue (k : String) (v : JVal)
    (H : ∀ w : JVal, sizeOf w ≤ sizeOf v → clampOkB (clampPagination w) = true) :
    clampOkEntry k (clampEntryValue k v) = true := by
  by_cases hf : k = "first"
  · subst hf
    have he : jsEndsWith "first" "Ids" = false := by decide
    have hb := clampNumberish_bounds v 1 200 (by omega)
    rw [clampEntryValue.eq_def, clampOkEntry.eq_def]
    simp [he, numInRange, clampOkB_num]
    exact ⟨by exact_mod_cast hb.1, by exact_mod_cast hb.2⟩
  · by_cases hs' : k = "skip"
    · subst hs'
      have he : jsEndsWith "skip" "Ids" = false := by decide
      have hb := clampNumberish_bounds v 0 100000 (by omega)
      rw [clampEntryValue.eq_def, clampOkEntry.eq_def]
      simp [he, numInRange, clampOkB_num]
      exact ⟨by exact_mod_cast hb.1, by exact_mod_cast hb.2⟩
    · rw [clampEntryValue.eq_def, clampOkEntry.eq_def]
      by_cases hi : (k = "ids" || jsEndsWith k "Ids") = true
      · cases v with
        | arr xs =>
          simp only [if_neg hf, if_neg hs', hi, if_true, if_pos]
          simp [clampOkB_arr, clampOkList_all, clampList_map, List.all_eq_true]
          intro x hx
          have hx' : x ∈ List.map clampPagination xs := List.take_subset _ _ hx
          obtain ⟨y, hy, rfl⟩ := List.mem_map.mp hx'
          have h1 : sizeOf y < sizeOf xs := List.sizeOf_lt_of_mem hy
          have h2 : sizeOf (JVal.arr xs) = 1 + sizeOf xs := by simp
          exact H y (by omega)
        | null =>
          simp only [if_neg hf, if_neg hs', hi, if_true, clampPagination_null]
          simp [clampOkB_null]
        | bool b =>
          simp only [if_neg hf, if_neg hs', hi, if_true, clampPagination_bool]
          simp [clampOkB_bool]
        | num m =>
          simp only [if_neg hf, if_neg hs', hi, if_true, clampPagination_num]
          simp [clampOkB_num]
        | str s =>
          simp only [if_neg hf, if_neg hs', hi, if_true, clampPagination_str]
          simp [clampOkB_str]
        | obj kvs =>
          simp only [if_neg hf, if_neg hs', hi, if_true, clampPagination_obj]
          have := H (.obj kvs) le_rfl
          rw [clampPagination_obj] at this
          simp [this]
      · have hi' : (k = "ids" || jsEndsWith k "Ids") = false := by
          simpa using hi
        cases v with
        | arr xs =>
          simp only [if_neg hf, if_neg hs', hi', Bool.false_eq_true, if_false]
          have := H (.arr xs) le_rfl
          simp [this]
        | null =>
          simp only [if_neg hf, if_neg hs', hi', Bool.false_eq_true, if_false, clampPagination_null]
          simp [clampOkB_null]
        | bool b =>
          simp only [if_neg hf, if_neg hs', hi', Bool.false_eq_true, if_false, clampPagination_bool]
          simp [clampOkB_bool]
        | num m =>
          simp only [if_neg hf, if_neg hs', hi', Bool.false_eq_true, if_false, clampPagination_num]
          simp [clampOkB_num]
        | str s =>
          simp only [if_neg hf, if_neg hs', hi', Bool.false_eq_true, if_false, clampPagination_str]
          simp [clampOkB_str]
        | obj kvs =>
          simp only [if_neg hf, if_neg hs', hi', Bool.false_eq_true, if_false, clampPagination_obj]
          have := H (.obj kvs) le_rfl
          rw [clampPagination_obj] at this
          simp [this]

theorem clampOk_aux : ∀ (n : Nat) (v : JVal), sizeOf v ≤ n → clampOkB (clampPagination v) = true := by
  intro n
  induction n using Nat.strong_induction_on with
  | _ n ih =>
    intro v hv
    cases v with
    | null => simp [clampPagination_null, clampOkB_null]
    | bool b => simp [clampPagination_bool, clampOkB_bool]
    | num m => simp [clampPagination_num, clampOkB_num]
    | str s => simp [clampPagination_str, clampOkB_str]
    | arr xs =>
      have hsz : sizeOf (JVal.arr xs) = 1 + sizeOf xs := by simp
      rw [clampPagination_arr, clampOkB_arr, clampOkList_all, clampList_map]
      simp only [List.all_map, List.all_eq_true]
      intro x hx
      have h1 : sizeOf x < sizeOf xs := List.sizeOf_lt_of_mem hx
      exact ih (sizeOf x) (by omega) x le_rfl
    | obj kvs =>
      have hsz : sizeOf (JVal.obj kvs) = 1 + sizeOf kvs := by simp
      rw [clampPagination_obj, clampOkB_obj, clampOkEntries_all, clampEntries_map]
      simp only [List.all_map, List.all_eq_true]
      intro p hp
      have h1 : sizeOf p < sizeOf kvs := List.sizeOf_lt_of_mem hp
      obtain ⟨a, b⟩ := p
      have h2 : sizeOf ((a, b) : String × JVal) = 1 + sizeOf a + sizeOf b := by simp
      exact clampOkEntry_clampEntryValue a b (fun w hw => ih (sizeOf w) (by omega) w le_rfl)

/-- C6: after `clampPagination`, the variables tree contains no `first` value
outside `[1, 200]`, no `skip` value outside `[0, 100000]`, and no `ids`/`*Ids`
array longer than 200 elements, at any nesting depth (every `first`/`skip` is
in fact a finite number in range); and a `first`/`skip` value that is
non-finite or unparsable — a non-numeric or empty string, boolean, object,
array, null, `NaN` or `±Infinity` — is replaced by the minimum of its range. -/
theorem clampPagination_bounds_C6 :
    (∀ v : JVal, clampOkB (clampPagination v) = true) ∧
    (∀ (s : String) (mn mx : Int), jsIsFinite (jsStringToNumber s) = false ∨ jsTrim s = "" →
      clampNumberish (.str s) mn mx = mn) ∧
    (∀ mn mx : Int, clampNumberish .null mn mx = mn) ∧
    (∀ (b : Bool) (mn mx : Int), clampNumberish (.bool b) mn mx = mn) ∧
    (∀ (kvs : List (String × JVal)) (mn mx : Int), clampNumberish (.obj kvs) mn mx = mn) ∧
    (∀ (xs : List JVal) (mn mx : Int), clampNumberish (.arr xs) mn mx = mn) ∧
    (∀ mn mx : Int, clampNumberish (.num .nan) mn mx = mn ∧
      clampNumberish (.num .inf) mn mx = mn ∧ clampNumberish (.num .ninf) mn mx = mn) := by
  refine ⟨fun v => clampOk_aux (sizeOf v) v le_rfl, ?_, ?_, ?_, ?_, ?_, ?_⟩
  · intro s mn mx h
    rcases h with h | h
    · simp only [clampNumberish]
      split_ifs with h1 h2
      · exact absurd h2 (by simp [h])
      · rfl
      · rfl
    · simp [clampNumberish, h]
  · intro mn mx; simp [clampNumberish]
  · intro b mn mx; simp [clampNumberish]
  · intro kvs mn mx; simp [clampNumberish]
  · intro xs mn mx; simp [clampNumberish]
  · intro mn mx
    exact ⟨by simp [clampNumberish, clampInt], by simp [clampNumberish, clampInt],
      by simp [clampNumberish, clampInt]⟩

/-- Witness for C6 at concrete inputs: the string "12abc" is unparsable and
clamps to the minimum of the `first` range. -/
theorem clampPagination_bounds_C6_witness :
    clampNumberish (.str "12abc") 1 200 = 1 :=
  clampPagination_bounds_C6.2.1 "12abc" 1 200 (Or.inl (by decide))

-- -------------------- C4: cacheability --------------------

/-- The value returned to the waiter by the in-flight worker is the
normalized upstream outcome on success and the failure value on rejection,
independent of any caching decision. -/
theorem runWork_fst (jsonParse : String → Option JVal) (forceFresh : Bool)
    (upstream probe : Except JsErr UpstreamResp) (ttl : Nat) (curl key : String) (st : Caches) :
    (runWork jsonParse forceFresh upstream probe ttl curl key st).1 =
      (match upstream with
        | .error e => failureValue e
        | .ok r => buildUpstreamValue r) := by
  cases upstream with
  | error e => rfl
  | ok r =>
    simp only [runWork]
    split
    · split
      · split <;> rfl
      · rfl
    · rfl

/-- C4: an outcome is written to the response cache only when the
cacheability predicate holds, and that predicate demands a successful
response whose JSON body (when the content type indicates JSON) parses to a
value without a top-level `errors` field; failed outcomes and `errors`
payloads are never stored. -/
theorem okToCache_C4 (jsonParse : String → Option JVal) (v : InflightValue) :
    (okToCache jsonParse v = true →
      v.ok = true ∧
      (jsIncludes v.contentType "application/json" = true →
        ∃ j, jsonParse v.text = some j ∧ isErrorsPayload j = false)) ∧
    (v.ok = false → okToCache jsonParse v = false) ∧
    (∀ j, jsIncludes v.contentType "application/json" = true → jsonParse v.text = some j →
      isErrorsPayload j = true → okToCache jsonParse v = false) ∧
    (∀ (forceFresh : Bool) (upstream probe : Except JsErr UpstreamResp) (ttl : Nat)
      (curl key : String) (st : Caches),
      lookupStore ((runWork jsonParse forceFresh upstream probe ttl curl key st).2).resp curl ≠
        lookupStore st.resp curl →
      okToCache jsonParse ((runWork jsonParse forceFresh upstream probe ttl curl key st).1) = true) := by
  refine ⟨?_, ?_, ?_, ?_⟩
  · intro h
    simp only [okToCache, Bool.and_eq_true] at h
    refine ⟨h.1, fun hct => ?_⟩
    have h2 := h.2
    rw [if_pos hct] at h2
    cases hj : jsonParse v.text with
    | none => rw [hj] at h2; exact absurd h2 (by simp)
    | some j =>
      rw [hj] at h2
      exact ⟨j, rfl, by simpa using h2⟩
  · intro h; simp [okToCache, h]
  · intro j hct hj herr
    simp [okToCache, hct, hj, herr]
  · intro forceFresh upstream probe ttl curl key st hne
    rw [runWork_fst]
    cases upstream with
    | error e => simp [runWork] at hne
    | ok r =>
      by_cases hoc : okToCache jsonParse (buildUpstreamValue r) = true
      · exact hoc
      · simp only [Bool.not_eq_true] at hoc
        simp [runWork, hoc] at hne

/-- Witness for C4 at a concrete input: a 200 JSON response whose body parses
without an `errors` field is cacheable, hence successful and errors-free. -/
theorem okToCache_C4_witness :
    okToCache (fun _ => some (.obj [("data", .null)]))
      { status := 200, contentType := "application/json", text := "x", ok := true } = true ∧
    ({ status := 200, contentType := "application/json", text := "x", ok := true } : InflightValue).ok = true := by
  have h : okToCache (fun _ => some (.obj [("data", .null)]))
      { status := 200, contentType := "application/json", text := "x", ok := true } = true := by
    simp [okToCache, jsIncludes, isErrorsPayload]
  exact ⟨h, ((okToCache_C4 (fun _ => some (.obj [("data", .null)]))
    { status := 200, contentType := "application/json", text := "x", ok := true }).1 h).1⟩

-- -------------------- C3: probe failure means no write --------------------

/-- C3: on a forced-fresh request whose upstream response is cacheable, if
the progress probe fails (or yields no usable counter), the meta-guard
returns false and nothing is written: the response cache and the recorded
counters are exactly as before, and the fresh upstream outcome is still the
value returned to the client. -/
theorem forcedFresh_probeFailure_C3 (jsonParse : String → Option JVal)
    (probe : Except JsErr UpstreamResp) (r : UpstreamResp) (ttl : Nat)
    (curl key : String) (st : Caches)
    (hprobe : fetchSubgraphMetaBlock jsonParse probe = none)
    (hcacheable : okToCache jsonParse (buildUpstreamValue r) = true) :
    runWork jsonParse true (.ok r) probe ttl curl key st = (buildUpstreamValue r, st) ∧
    shouldWriteThroughCacheMetaGuard jsonParse probe key st = (false, st) := by
  have hg : shouldWriteThroughCacheMetaGuard jsonParse probe key st = (false, st) := by
    simp [shouldWriteThroughCacheMetaGuard, hprobe]
  exact ⟨by simp [runWork, hcacheable, hg], hg⟩

/-- Witness for C3 at concrete inputs: a rejected probe call, a cacheable
non-JSON 200 response, and a non-empty prior cache state are left untouched. -/
theorem forcedFresh_probeFailure_C3_witness :
    runWork (fun _ => none) true
      (.ok { status := 200, ok := true, contentType := some "text/plain", text := "hi" })
      (.error { message := "boom" }) 8 "https://h/__cache/k" "k"
      { resp := [("a", textResponse 200 "old")], meta := [("m", "5")] } =
      (buildUpstreamValue { status := 200, ok := true, contentType := some "text/plain", text := "hi" },
        { resp := [("a", textResponse 200 "old")], meta := [("m", "5")] }) :=
  (forcedFresh_probeFailure_C3 (fun _ => none) (.error { message := "boom" })
    { status := 200, ok := true, contentType := some "text/plain", text := "hi" } 8
    "https://h/__cache/k" "k" { resp := [("a", textResponse 200 "old")], meta := [("m", "5")] }
    (by simp [fetchSubgraphMetaBlock])
    (by simp [okToCache, buildUpstreamValue, jsIncludes]; decide)).1

-- -------------------- C1: meta-guard monotonicity --------------------

/-- C1: with a finite recorded counter `P` for the key and a finite newly
observed counter `n`, the meta-guard accepts the forced-fresh write-through
iff `n ≥ P`; when `n < P` it returns false, leaves the recorded counter
untouched, and the forced-fresh `runWork` leaves the whole cache state —
response entry included — unchanged. -/
theorem metaGuard_monotone_C1 (jsonParse : String → Option JVal)
    (probe upstream : Except JsErr UpstreamResp) (hashKey txt : String) (P n : ℚ)
    (st : Caches) (ttl : Nat) (curl : String)
    (hrec : lookupStore st.meta (urlToString (metaKeyUrlFrom exampleInvalidGraphql hashKey)) = some txt)
    (hP : jsStringToNumber txt = .fin P)
    (hn : fetchSubgraphMetaBlock jsonParse probe = some (.fin n)) :
    ((shouldWriteThroughCacheMetaGuard jsonParse probe hashKey st).1 = true ↔ P ≤ n) ∧
    (n < P →
      shouldWriteThroughCacheMetaGuard jsonParse probe hashKey st = (false, st) ∧
      (runWork jsonParse true upstream probe ttl curl hashKey st).2 = st) := by
  have hguard : shouldWriteThroughCacheMetaGuard jsonParse probe hashKey st =
      (if n < P then (false, st)
       else (true,
         { st with
           meta := putStore st.meta (urlToString (metaKeyUrlFrom exampleInvalidGraphql hashKey)) (jsStringOfNumber (.fin n)) })) := by
    simp only [shouldWriteThroughCacheMetaGuard, hn, hrec, hP, jsIsFinite, jsLtB]
    split_ifs with h1 h2 h3 <;> simp_all
  constructor
  · rw [hguard]
    split_ifs with h1
    · simp
      linarith
    · simp
      linarith
  · intro hlt
    have hg : shouldWriteThroughCacheMetaGuard jsonParse probe hashKey st = (false, st) := by
      rw [hguard, if_pos hlt]
    refine ⟨hg, ?_⟩
    cases upstream with
    | error e => rfl
    | ok r =>
      simp only [runWork]
      split
      · simp only [if_pos, if_true, hg]
      · rfl

/-- Witness for C1 at concrete inputs: recorded counter 5, observed counter
3 < 5, so the guard refuses and the state is unchanged. -/
theorem metaGuard_monotone_C1_witness :
    ((shouldWriteThroughCacheMetaGuard c1ParseW (.ok c1ProbeRespW) "k" c1StW).1 = true ↔ (5 : ℚ) ≤ 3) ∧
    ((3 : ℚ) < 5 →
      shouldWriteThroughCacheMetaGuard c1ParseW (.ok c1ProbeRespW) "k" c1StW = (false, c1StW) ∧
      (runWork c1ParseW true (.error { message := "x" }) (.ok c1ProbeRespW) 8 "u" "k" c1StW).2 = c1StW) :=
  metaGuard_monotone_C1 c1ParseW (.ok c1ProbeRespW) (.error { message := "x" }) "k" "5" 5 3 c1StW 8 "u"
    (by decide) (by with_unfolding_all decide) (by with_unfolding_all decide)

-- -------------------- C2 / C7: single-flight coalescing --------------------

/-- Erasing a key from the slot list really removes it. -/
theorem lookupSlot_erase (l : List (String × List Nat)) (k : String) :
    lookupSlot (l.filter (fun p => p.1 ≠ k)) k = none := by
  induction l with
  | nil => rfl
  | cons p t ih =>
    by_cases h : p.1 = k
    · simpa [List.filter, h] using ih
    · simpa [List.filter, h, lookupSlot, List.find?, h] using ih

/-- Processing further arrivals for a key whose slot exists only appends the
new waiters: no upstream dispatch, no delivery. -/
theorem sfRun_arrive_existing (k : String) (rids : List Nat) :
    ∀ (ws : List Nat) (c : Nat) (d : List (Nat × InflightValue)),
    sfRun ⟨[(k, ws)], c, d⟩ (rids.map (SFEvent.arrive k)) = ⟨[(k, ws ++ rids)], c, d⟩ := by
  induction rids with
  | nil => intro ws c d; simp [sfRun]
  | cons r t ih =>
    intro ws c d
    have hstep : sfStep ⟨[(k, ws)], c, d⟩ (SFEvent.arrive k r) = ⟨[(k, ws ++ [r])], c, d⟩ := by
      simp [sfStep, lookupSlot, List.find?]
    calc sfRun ⟨[(k, ws)], c, d⟩ ((SFEvent.arrive k r) :: t.map (SFEvent.arrive k))
        = sfRun ⟨[(k, ws ++ [r])], c, d⟩ (t.map (SFEvent.arrive k)) := by
          simp [sfRun, hstep]
      _ = ⟨[(k, (ws ++ [r]) ++ t)], c, d⟩ := ih (ws ++ [r]) c d
      _ = ⟨[(k, ws ++ (r :: t))], c, d⟩ := by simp

/-- C2: under the event-loop semantics of the single-flight map, N ≥ 1
concurrent arrivals for the same uncached key followed by the completion of
the pending work perform exactly one upstream dispatch, deliver the one
identical outcome to all N requesters, clear the slot — and at every instant
during the burst at most one dispatch has been made. -/
theorem singleFlight_coalesce_C2 (k : String) (rids : List Nat) (v : InflightValue)
    (hne : rids ≠ []) :
    (sfRun sfEmpty (rids.map (SFEvent.arrive k) ++ [SFEvent.complete k v])).calls = 1 ∧
    (sfRun sfEmpty (rids.map (SFEvent.arrive k) ++ [SFEvent.complete k v])).delivered =
      rids.map (fun r => (r, v)) ∧
    lookupSlot (sfRun sfEmpty (rids.map (SFEvent.arrive k) ++ [SFEvent.complete k v])).slots k = none ∧
    (∀ i : Nat, (sfRun sfEmpty ((rids.take i).map (SFEvent.arrive k))).calls ≤ 1) := by
  cases rids with
  | nil => exact absurd rfl hne
  | cons r t =>
    have hfirst : sfStep sfEmpty (SFEvent.arrive k r) = ⟨[(k, [r])], 1, []⟩ := by
      simp [sfStep, sfEmpty, lookupSlot]
    have hrun : sfRun sfEmpty ((r :: t).map (SFEvent.arrive k)) = ⟨[(k, r :: t)], 1, []⟩ := by
      calc sfRun sfEmpty ((SFEvent.arrive k r) :: t.map (SFEvent.arrive k))
          = sfRun ⟨[(k, [r])], 1, []⟩ (t.map (SFEvent.arrive k)) := by simp [sfRun, hfirst]
        _ = ⟨[(k, [r] ++ t)], 1, []⟩ := sfRun_arrive_existing k t [r] 1 []
        _ = ⟨[(k, r :: t)], 1, []⟩ := by simp
    have hall : sfRun sfEmpty ((r :: t).map (SFEvent.arrive k) ++ [SFEvent.complete k v]) =
        ⟨[], 1, (r :: t).map (fun x => (x, v))⟩ := by
      rw [sfRun, List.foldl_append]
      rw [show List.foldl sfStep sfEmpty ((r :: t).map (SFEvent.arrive k)) = ⟨[(k, r :: t)], 1, []⟩ from hrun]
      simp [sfStep, lookupSlot, List.find?]
    refine ⟨by rw [hall], by rw [hall], by rw [hall]; rfl, ?_⟩
    intro i
    cases i with
    | zero => simp [sfRun, sfEmpty]
    | succ j =>
      have : sfRun sfEmpty (((r :: t).take (j + 1)).map (SFEvent.arrive k)) =
          ⟨[(k, r :: t.take j)], 1, []⟩ := by
        calc sfRun sfEmpty ((SFEvent.arrive k r) :: (t.take j).map (SFEvent.arrive k))
            = sfRun ⟨[(k, [r])], 1, []⟩ ((t.take j).map (SFEvent.arrive k)) := by simp [sfRun, hfirst]
          _ = ⟨[(k, [r] ++ t.take j)], 1, []⟩ := sfRun_arrive_existing k (t.take j) [r] 1 []
          _ = ⟨[(k, r :: t.take j)], 1, []⟩ := by simp
      rw [this]

/-- Witness for C2 at a concrete input: three concurrent requests, one call,
three identical deliveries. -/
theorem singleFlight_coalesce_C2_witness :
    (sfRun sfEmpty ([0, 1, 2].map (SFEvent.arrive "k") ++
      [SFEvent.complete "k" { status := 200, contentType := "application/json", text := "b", ok := true }])).calls = 1 :=
  (singleFlight_coalesce_C2 "k" [0, 1, 2]
    { status := 200, contentType := "application/json", text := "b", ok := true } (by decide)).1

/-- An arrival for a key with no slot always dispatches: the call counter
increments. -/
theorem sfStep_arrive_calls (st : SFState) (k : String) (r : Nat)
    (h : lookupSlot st.slots k = none) :
    (sfStep st (.arrive k r)).calls = st.calls + 1 := by
  simp [sfStep, h]

/-- C7: when the pending work for a key completes — successfully or with the
failure-valued outcome the catch branch produces — the slot is removed, and a
later arrival for the same key dispatches a fresh upstream call; the failure
branch of the worker returns a value (`ok = false`, status 504 on timeout,
502 otherwise) rather than a rejected future, and touches no cache state. -/
theorem singleFlight_slotRemoval_C7 (st : SFState) (k : String) (ws : List Nat)
    (v : InflightValue) (r : Nat) (e : JsErr) (jsonParse : String → Option JVal)
    (forceFresh : Bool) (probe : Except JsErr UpstreamResp) (ttl : Nat)
    (curl key : String) (cst : Caches)
    (hslot : lookupSlot st.slots k = some ws) :
    lookupSlot (sfStep st (.complete k v)).slots k = none ∧
    (sfStep (sfStep st (.complete k v)) (.arrive k r)).calls = (sfStep st (.complete k v)).calls + 1 ∧
    (runWork jsonParse forceFresh (.error e) probe ttl curl key cst).1.ok = false ∧
    (runWork jsonParse forceFresh (.error e) probe ttl curl key cst).2 = cst ∧
    (runWork jsonParse forceFresh (.error e) probe ttl curl key cst).1.status =
      (if isAbortTimeout e then 504 else 502) := by
  have hdone : sfStep st (.complete k v) =
      { slots := st.slots.filter (fun p => p.1 ≠ k), calls := st.calls,
        delivered := st.delivered ++ ws.map (fun x => (x, v)) } := by
    simp [sfStep, hslot]
  have hnone : lookupSlot (sfStep st (.complete k v)).slots k = none := by
    rw [hdone]
    exact lookupSlot_erase st.slots k
  exact ⟨hnone, sfStep_arrive_calls _ k r hnone, rfl, rfl, rfl⟩

/-- Witness for C7 at a concrete input: a one-waiter slot is removed by a
failure completion and the next arrival dispatches again. -/
theorem singleFlight_slotRemoval_C7_witness :
    lookupSlot (sfStep ⟨[("k", [0])], 1, []⟩
      (.complete "k" (failureValue { message := "boom" }))).slots "k" = none :=
  (singleFlight_slotRemoval_C7 ⟨[("k", [0])], 1, []⟩ "k" [0]
    (failureValue { message := "boom" }) 7 { message := "timeout x" } (fun _ => none) false
    (.error { message := "p" }) 8 "u" "hk" { resp := [], meta := [] } (by decide)).1

-- -------------------- C5: canonicalization is order-independent --------------------

theorem canonHelper_null : canonHelper .null = .null := by rw [canonHelper.eq_def]

theorem canonHelper_bool (b : Bool) : canonHelper (.bool b) = .bool b := by rw [canonHelper.eq_def]

theorem canonHelper_num (m : JsNum) : canonHelper (.num m) = .num m := by rw [canonHelper.eq_def]

theorem canonHelper_str (s : String) : canonHelper (.str s) = .str s := by rw [canonHelper.eq_def]

theorem canonHelper_arr (xs : List JVal) : canonHelper (.arr xs) = .arr (canonList xs) := by
  rw [canonHelper.eq_def]

theorem canonHelper_obj (kvs : List (String × JVal)) :
    canonHelper (.obj kvs) = .obj (List.insertionSort keyLe (canonEntries kvs)) := by
  rw [canonHelper.eq_def]

theorem canonList_nil : canonList [] = [] := by rw [canonList.eq_def]

theorem canonList_cons (x : JVal) (t : List JVal) :
    canonList (x :: t) = canonHelper x :: canonList t := by rw [canonList.eq_def]

theorem canonEntries_nil : canonEntries [] = [] := by rw [canonEntries.eq_def]

theorem canonEntries_cons (k : String) (v : JVal) (t : List (String × JVal)) :
    canonEntries ((k, v) :: t) = (k, canonHelper v) :: canonEntries t := by
  rw [canonEntries.eq_def]

theorem canonEntries_map (l : List (String × JVal)) :
    canonEntries l = l.map (fun p => (p.1, canonHelper p.2)) := by
  induction l with
  | nil => simp [canonEntries_nil]
  | cons p t ih => cases p; simp [canonEntries_cons, ih]

theorem canonEntries_keys (l : List (String × JVal)) :
    (canonEntries l).map Prod.fst = l.map Prod.fst := by
  simp [canonEntries_map]

theorem nodupKeysRec_null : nodupKeysRec .null = true := by rw [nodupKeysRec.eq_def]

theorem nodupKeysRec_bool (b : Bool) : nodupKeysRec (.bool b) = true := by rw [nodupKeysRec.eq_def]

theorem nodupKeysRec_num (m : JsNum) : nodupKeysRec (.num m) = true := by rw [nodupKeysRec.eq_def]

theorem nodupKeysRec_str (s : String) : nodupKeysRec (.str s) = true := by rw [nodupKeysRec.eq_def]

theorem nodupKeysRec_arr (xs : List JVal) : nodupKeysRec (.arr xs) = nodupListRec xs := by
  rw [nodupKeysRec.eq_def]

theorem nodupKeysRec_obj (kvs : List (String × JVal)) :
    nodupKeysRec (.obj kvs) = (decide ((kvs.map Prod.fst).Nodup) && nodupEntriesRec kvs) := by
  rw [nodupKeysRec.eq_def]

theorem nodupEntriesRec_nil : nodupEntriesRec [] = true := by rw [nodupEntriesRec.eq_def]

theorem nodupEntriesRec_cons (k : String) (v : JVal) (t : List (String × JVal)) :
    nodupEntriesRec ((k, v) :: t) = (nodupKeysRec v && nodupEntriesRec t) := by
  rw [nodupEntriesRec.eq_def]

theorem nodupListRec_nil : nodupListRec [] = true := by rw [nodupListRec.eq_def]

theorem nodupListRec_cons (x : JVal) (t : List JVal) :
    nodupListRec (x :: t) = (nodupKeysRec x && nodupListRec t) := by
  rw [nodupListRec.eq_def]

theorem nodupListRec_mem (xs : List JVal) :
    nodupListRec xs = true ↔ ∀ x ∈ xs, nodupKeysRec x = true := by
  induction xs with
  | nil => simp [nodupListRec_nil]
  | cons x t ih => simp [nodupListRec_cons, ih]

theorem nodupEntriesRec_mem (l : List (String × JVal)) :
    nodupEntriesRec l = true ↔ ∀ p ∈ l, nodupKeysRec p.2 = true := by
  induction l with
  | nil => simp [nodupEntriesRec_nil]
  | cons p t ih => cases p; simp [nodupEntriesRec_cons, ih]

/-- Association lists with the same key sequence, duplicate-free keys, and
containment are equal. -/
theorem assoc_align : ∀ (l₁ l₂ : List (String × JVal)),
    l₁.map Prod.fst = l₂.map Prod.fst →
    (l₂.map Prod.fst).Nodup →
    (∀ p, p ∈ l₁ → p ∈ l₂) →
    l₁ = l₂ := by
  intro l₁
  induction l₁ with
  | nil =>
    intro l₂ hk _ _
    cases l₂ with
    | nil => rfl
    | cons q t₂ => simp at hk
  | cons p t ih =>
    intro l₂ hk hnd hmem
    cases l₂ with
    | nil => simp at hk
    | cons q t₂ =>
      obtain ⟨a, b⟩ := p
      obtain ⟨c, d⟩ := q
      simp only [List.map_cons, List.cons.injEq] at hk
      obtain ⟨hac, htk⟩ := hk
      subst hac
      simp only [List.map_cons, List.nodup_cons] at hnd
      have hhead : (a, b) ∈ (a, d) :: t₂ := hmem _ (List.mem_cons_self _ _)
      have hbd : b = d := by
        rcases List.mem_cons.mp hhead with h | h
        · exact (Prod.ext_iff.mp h).2
        · exfalso
          exact hnd.1 (htk ▸ (List.mem_map_of_mem Prod.fst h))
      subst hbd
      have htail : ∀ p', p' ∈ t → p' ∈ t₂ := by
        intro p' hp'
        have hmem' := hmem p' (List.mem_cons_of_mem _ hp')
        rcases List.mem_cons.mp hmem' with h | h
        · exfalso
          have : p'.1 ∈ t.map Prod.fst := List.mem_map_of_mem Prod.fst hp'
          rw [htk] at this
          rw [h] at this
          exact hnd.1 this
        · exact h
      rw [ih t₂ htk hnd.2 htail]

/-- Sorting by key sends permuted entry lists with duplicate-free keys to the
same sorted list. -/
theorem insertionSort_eq_of_perm_nodup (l₁ l₂ : List (String × JVal))
    (hp : l₁.Perm l₂) (hnd : (l₂.map Prod.fst).Nodup) :
    List.insertionSort keyLe l₁ = List.insertionSort keyLe l₂ := by
  have hps : (List.insertionSort keyLe l₁).Perm (List.insertionSort keyLe l₂) :=
    (List.perm_insertionSort keyLe l₁).trans (hp.trans (List.perm_insertionSort keyLe l₂).symm)
  have hkeys₁ : List.Sorted (fun a b => a ≤ b) ((List.insertionSort keyLe l₁).map Prod.fst) :=
    List.pairwise_map.mpr (List.sorted_insertionSort keyLe l₁)
  have hkeys₂ : List.Sorted (fun a b => a ≤ b) ((List.insertionSort keyLe l₂).map Prod.fst) :=
    List.pairwise_map.mpr (List.sorted_insertionSort keyLe l₂)
  have hkeq : (List.insertionSort keyLe l₁).map Prod.fst =
      (List.insertionSort keyLe l₂).map Prod.fst :=
    List.eq_of_perm_of_sorted (hps.map Prod.fst) hkeys₁ hkeys₂
  have hnd₂ : ((List.insertionSort keyLe l₂).map Prod.fst).Nodup := by
    have hpm : ((List.insertionSort keyLe l₂).map Prod.fst).Perm (l₂.map Prod.fst) :=
      (List.perm_insertionSort keyLe l₂).map Prod.fst
    exact hpm.nodup_iff.mpr hnd
  exact assoc_align _ _ hkeq hnd₂ (fun p hp' => hps.mem_iff.mp hp')

/-- Value-wise congruence of `canonList` along `SameListUpToOrder`. -/
theorem canonList_congr : ∀ (xs ys : List JVal), SameListUpToOrder xs ys →
    (∀ x y, x ∈ xs → y ∈ ys → SameUpToOrder x y → canonHelper x = canonHelper y) →
    canonList xs = canonList ys := by
  intro xs
  induction xs with
  | nil =>
    intro ys hL _
    cases hL
    rfl
  | cons x t ihx =>
    intro ys hL H
    cases hL with
    | cons hxy hrest =>
      rename_i y ys'
      rw [canonList_cons, canonList_cons]
      rw [H x y (List.mem_cons_self _ _) (List.mem_cons_self _ _) hxy]
      rw [ihx _ hrest (fun x' y' hx' hy' h' =>
        H x' y' (List.mem_cons_of_mem _ hx') (List.mem_cons_of_mem _ hy') h')]

/-- Value-wise congruence of `canonEntries` along `SameEntriesUpToOrder`. -/
theorem canonEntries_congr : ∀ (l₁ l₂ : List (String × JVal)), SameEntriesUpToOrder l₁ l₂ →
    (∀ k v w, (k, v) ∈ l₁ → (k, w) ∈ l₂ → SameUpToOrder v w → canonHelper v = canonHelper w) →
    canonEntries l₁ = canonEntries l₂ := by
  intro l₁
  induction l₁ with
  | nil =>
    intro l₂ hE _
    cases hE
    rfl
  | cons p t ihp =>
    intro l₂ hE H
    cases hE with
    | cons hvw hrest =>
      rename_i k v w t₂
      rw [canonEntries_cons, canonEntries_cons]
      rw [H k v w (List.mem_cons_self _ _) (List.mem_cons_self _ _) hvw]
      rw [ihp _ hrest (fun k' v' w' hv' hw' h' =>
        H k' v' w' (List.mem_cons_of_mem _ hv') (List.mem_cons_of_mem _ hw') h')]

/-- Core congruence: canonicalization maps key-order-equivalent values (with
duplicate-free keys) to the same canonical value. -/
theorem canonHelper_congr_aux : ∀ (n : Nat) (a b : JVal), sizeOf a ≤ n → SameUpToOrder a b →
    nodupKeysRec a = true → nodupKeysRec b = true → canonHelper a = canonHelper b := by
  intro n
  induction n using Nat.strong_induction_on with
  | _ n ih =>
    intro a b hsz hS hna hnb
    cases hS with
    | null => rfl
    | bool b => rfl
    | num m => rfl
    | str s => rfl
    | arr hL =>
      rename_i xs ys
      rw [canonHelper_arr, canonHelper_arr]
      have hszxs : sizeOf (JVal.arr xs) = 1 + sizeOf xs := by simp
      rw [nodupKeysRec_arr] at hna hnb
      refine congrArg JVal.arr (canonList_congr xs ys hL ?_)
      intro x y hx hy hxy
      have h1 : sizeOf x < sizeOf xs := List.sizeOf_lt_of_mem hx
      exact ih (sizeOf x) (by omega) x y le_rfl hxy
        ((nodupListRec_mem xs).mp hna x hx) ((nodupListRec_mem ys).mp hnb y hy)
    | obj hperm hentries =>
      rename_i kvs₁ mid kvs₃
      rw [canonHelper_obj, canonHelper_obj]
      have hsz₁ : sizeOf (JVal.obj kvs₁) = 1 + sizeOf kvs₁ := by simp
      rw [nodupKeysRec_obj, Bool.and_eq_true, decide_eq_true_eq] at hna hnb
      have hmid_eq : canonEntries mid = canonEntries kvs₃ := by
        refine canonEntries_congr mid kvs₃ hentries ?_
        intro k v w hv hw hS'
        have hv₁ : (k, v) ∈ kvs₁ := hperm.mem_iff.mpr hv
        have h1 : sizeOf ((k, v) : String × JVal) < sizeOf kvs₁ := List.sizeOf_lt_of_mem hv₁
        have h2 : sizeOf ((k, v) : String × JVal) = 1 + sizeOf k + sizeOf v := by simp
        refine ih (sizeOf v) (by omega) v w le_rfl hS' ?_ ?_
        · exact (nodupEntriesRec_mem kvs₁).mp hna.2 (k, v) hv₁
        · exact (nodupEntriesRec_mem kvs₃).mp hnb.2 (k, w) hw
      have hpm : (canonEntries kvs₁).Perm (canonEntries kvs₃) := by
        have hpm' : (canonEntries kvs₁).Perm (canonEntries mid) := by
          rw [canonEntries_map, canonEntries_map]
          exact hperm.map _
        rw [hmid_eq] at hpm'
        exact hpm'
      have hnd : ((canonEntries kvs₃).map Prod.fst).Nodup := by
        rw [canonEntries_keys]
        exact hnb.1
      exact congrArg JVal.obj (insertionSort_eq_of_perm_nodup _ _ hpm hnd)

/-- `SameUpToOrder` is reflexive. -/
theorem sameUpToOrder_refl_aux : ∀ (n : Nat) (v : JVal), sizeOf v ≤ n → SameUpToOrder v v := by
  intro n
  induction n using Nat.strong_induction_on with
  | _ n ih =>
    intro v hv
    cases v with
    | null => exact .null
    | bool b => exact .bool b
    | num m => exact .num m
    | str s => exact .str s
    | arr xs =>
      have hsz : sizeOf (JVal.arr xs) = 1 + sizeOf xs := by simp
      have hlist : ∀ (t : List JVal), (∀ x ∈ t, SameUpToOrder x x) → SameListUpToOrder t t := by
        intro t ht
        induction t with
        | nil => exact .nil
        | cons x r ihr =>
          exact .cons (ht x (List.mem_cons_self _ _))
            (ihr (fun x' h' => ht x' (List.mem_cons_of_mem _ h')))
      refine .arr (hlist xs (fun x hx => ?_))
      have h1 : sizeOf x < sizeOf xs := List.sizeOf_lt_of_mem hx
      exact ih (sizeOf x) (by omega) x le_rfl
    | obj kvs =>
      have hsz : sizeOf (JVal.obj kvs) = 1 + sizeOf kvs := by simp
      have hent : ∀ (t : List (String × JVal)), (∀ p ∈ t, SameUpToOrder p.2 p.2) →
          SameEntriesUpToOrder t t := by
        intro t ht
        induction t with
        | nil => exact .nil
        | cons p r ihr =>
          obtain ⟨k, v⟩ := p
          exact .cons (ht (k, v) (List.mem_cons_self _ _))
            (ihr (fun p' h' => ht p' (List.mem_cons_of_mem _ h')))
      refine .obj (List.Perm.refl kvs) (hent kvs (fun p hp => ?_))
      have h1 : sizeOf p < sizeOf kvs := List.sizeOf_lt_of_mem hp
      obtain ⟨k, v⟩ := p
      have h2 : sizeOf ((k, v) : String × JVal) = 1 + sizeOf k + sizeOf v := by simp
      exact ih (sizeOf v) (by omega) v le_rfl

/-- C5: canonicalization is order-independent: two variables objects that
differ only in the insertion order of object keys (recursively, with the
duplicate-free keys JS objects always have) produce byte-identical canonical
strings, and therefore the same cache key for any query text. -/
theorem canonicalStringify_orderIndependent_C5 (a b : JVal)
    (hS : SameUpToOrder a b) (hna : nodupKeysRec a = true) (hnb : nodupKeysRec b = true) :
    canonicalStringify a = canonicalStringify b ∧
    (∀ q : String, deriveHashKey q a = deriveHashKey q b) := by
  have hmain := canonHelper_congr_aux (sizeOf a) a b le_rfl hS hna hnb
  refine ⟨congrArg stringifyJ hmain, ?_⟩
  intro q
  have hpS : SameUpToOrder
      (.obj [("v", .num (.fin 7)), ("query", .str q), ("variables", a)])
      (.obj [("v", .num (.fin 7)), ("query", .str q), ("variables", b)]) :=
    .obj (List.Perm.refl _)
      (.cons (.num _) (.cons (.str _) (.cons hS .nil)))
  have hq : nodupKeysRec (.str q) = true := nodupKeysRec_str q
  have hpa : nodupKeysRec (.obj [("v", .num (.fin 7)), ("query", .str q), ("variables", a)]) = true := by
    rw [nodupKeysRec_obj]
    simp [nodupEntriesRec_cons, nodupEntriesRec_nil, nodupKeysRec_num, hq, hna]
  have hpb : nodupKeysRec (.obj [("v", .num (.fin 7)), ("query", .str q), ("variables", b)]) = true := by
    rw [nodupKeysRec_obj]
    simp [nodupEntriesRec_cons, nodupEntriesRec_nil, nodupKeysRec_num, hq, hnb]
  have hpayload := canonHelper_congr_aux
    (sizeOf (JVal.obj [("v", .num (.fin 7)), ("query", .str q), ("variables", a)]))
    _ _ le_rfl hpS hpa hpb
  exact congrArg sha256Hex (congrArg stringifyJ hpayload)

/-- Witness for C5 at concrete inputs: the two-key object with its keys
inserted in the opposite order canonicalizes to the same string. -/
theorem canonicalStringify_orderIndependent_C5_witness :
    SameUpToOrder (.obj [("x", JVal.null), ("y", .bool true)])
      (.obj [("y", .bool true), ("x", JVal.null)]) ∧
    canonicalStringify (.obj [("x", JVal.null), ("y", .bool true)]) =
      canonicalStringify (.obj [("y", .bool true), ("x", JVal.null)]) := by
  have hS : SameUpToOrder (.obj [("x", JVal.null), ("y", .bool true)])
      (.obj [("y", .bool true), ("x", JVal.null)]) :=
    .obj (List.Perm.swap ("y", .bool true) ("x", JVal.null) [])
      (.cons (.bool true) (.cons .null .nil))
  have hna : nodupKeysRec (.obj [("x", JVal.null), ("y", .bool true)]) = true := by
    rw [nodupKeysRec_obj]
    simp [nodupEntriesRec_cons, nodupEntriesRec_nil, nodupKeysRec_null, nodupKeysRec_bool]
  have hnb : nodupKeysRec (.obj [("y", .bool true), ("x", JVal.null)]) = true := by
    rw [nodupKeysRec_obj]
    simp [nodupEntriesRec_cons, nodupEntriesRec_nil, nodupKeysRec_null, nodupKeysRec_bool]
  exact ⟨hS, (canonicalStringify_orderIndependent_C5 _ _ hS hna hnb).1⟩

-- -------------------- C8: total outer boundary --------------------

/-- C8: the handler always produces a well-formed response: either the
pipeline completed and its response is returned as-is, or the failure that
escaped the pipeline is caught at the outermost boundary and converted into
the generic 500 `WORKER_INTERNAL_ERROR` JSON response (cache state
untouched); no exception ever propagates out of `fetchHandler`. -/
theorem fetchHandler_total_C8 (o : Oracle) (req : RequestModel) (env : EnvModel) (st : Caches) :
    (∃ rc, fetchPipeline o req env st = .ok rc ∧ fetchHandler o req env st = rc) ∨
    (∃ e : JsErr, fetchPipeline o req env st = .error e ∧
      fetchHandler o req env st = (withCors (internalErrorResponse e), st) ∧
      (withCors (internalErrorResponse e)).status = 500 ∧
      (withCors (internalErrorResponse e)).body =
        stringifyJ (.obj [("error", .str "WORKER_INTERNAL_ERROR"), ("message", .str e.message)])) := by
  cases h : fetchPipeline o req env st with
  | ok rc => exact Or.inl ⟨rc, rfl, by simp [fetchHandler, h]⟩
  | error e => exact Or.inr ⟨e, rfl, by simp [fetchHandler, h], rfl, rfl⟩

-- -------------------- C10: key and cache address ignore the query string --------------------

/-- C10: for identical bodies, the derived cache key and the synthetic cache
address are identical across requests whose URLs differ only in the query
string: the key is a function of the fixed version constant, the query text
and the clamped variables alone, and the synthetic address always carries an
empty query string. -/
theorem cacheKey_url_independent_C10 (u : UrlParts) (s₁ s₂ : String) (q : String) (v : JVal) :
    deriveKeyAndCacheReq { u with search := s₁ } q v = deriveKeyAndCacheReq { u with search := s₂ } q v ∧
    (∀ u' : UrlParts, (deriveKeyAndCacheReq u q v).1 = (deriveKeyAndCacheReq u' q v).1) ∧
    (deriveKeyAndCacheReq u q v).1 = deriveHashKey q (clampPagination v) ∧
    (deriveKeyAndCacheReq u q v).2.search = "" := by
  exact ⟨by simp [deriveKeyAndCacheReq, deriveCacheReqUrl], fun u' => rfl, rfl, rfl⟩

-- -------------------- C9: TTL policy --------------------

/-- C9 counterexample: the query text `"_meta"` matches none of the patterns
the claim lists ("query GlobalFeed", "query LotteryById", creator/
fee-recipient lists, billboard/homepage), so under the claim it would take
the default TTL of 8 seconds — but `pickTtlSeconds` has an additional
`_meta`-rule and returns 3. -/
theorem pickTtlSeconds_C9_counterexample :
    jsIncludes (jsToLower "_meta") "query globalfeed" = false ∧
    jsIncludes (jsToLower "_meta") "query lotterybyid" = false ∧
    jsIncludes (jsToLower "_meta") "query lotteriesbycreator" = false ∧
    jsIncludes (jsToLower "_meta") "query lotteriesbyfeerecipient" = false ∧
    jsIncludes (jsToLower "_meta") "query globalstats" = false ∧
    jsIncludes (jsToLower "_meta") "query globalstatsbillboard" = false ∧
    jsIncludes (jsToLower "_meta") "query homelotteries" = false ∧
    DEFAULT_TTL_SECONDS = 8 ∧
    pickTtlSeconds "_meta" = 3 := by
  refine ⟨by decide, by decide, by decide, by decide, by decide, by decide, by decide, rfl, ?_⟩
  have h1 : jsIncludes (jsToLower "_meta") "query globalfeed" = false := by decide
  have h2 : jsIncludes (jsToLower "_meta") "_meta" = true := by decide
  simp [pickTtlSeconds, h1, h2]

/-- C9 (amended): the TTL policy is a case-insensitive substring match on
the query text, in the code's priority order: GlobalFeed → 3 s; queries
touching `_meta`/`__Meta` → 3 s; GlobalStats/GlobalStatsBillboard and
HomeLotteries (billboard/homepage) → 8 s; LotteryById,
UserLotteriesByUser and UserLotteriesByLottery (detail/by-user) → 15 s;
LotteriesByCreator and LotteriesByFeeRecipient (creator/fee-recipient
lists) → 20 s; any unmatched query → the default of 8 s. -/
theorem pickTtlSeconds_C9_amended (query : String) :
    (jsIncludes (jsToLower query) "query globalfeed" = true → pickTtlSeconds query = 3) ∧
    (jsIncludes (jsToLower query) "query globalfeed" = false →
      (jsIncludes (jsToLower query) "_meta" = true ∨ jsIncludes (jsToLower query) "query __meta" = true) →
      pickTtlSeconds query = 3) ∧
    (jsIncludes (jsToLower query) "query globalfeed" = false →
      jsIncludes (jsToLower query) "_meta" = false →
      jsIncludes (jsToLower query) "query __meta" = false →
      (jsIncludes (jsToLower query) "query globalstats" = true ∨
       jsIncludes (jsToLower query) "query globalstatsbillboard" = true ∨
       jsIncludes (jsToLower query) "query homelotteries" = true) →
      pickTtlSeconds query = 8) ∧
    (jsIncludes (jsToLower query) "query globalfeed" = false →
      jsIncludes (jsToLower query) "_meta" = false →
      jsIncludes (jsToLower query) "query __meta" = false →
      jsIncludes (jsToLower query) "query globalstats" = false →
      jsIncludes (jsToLower query) "query homelotteries" = false →
      (jsIncludes (jsToLower query) "query lotterybyid" = true ∨
       jsIncludes (jsToLower query) "query userlotteriesbyuser" = true ∨
       jsIncludes (jsToLower query) "query userlotteriesbylottery" = true) →
      pickTtlSeconds query = 15) ∧
    (jsIncludes (jsToLower query) "query globalfeed" = false →
      jsIncludes (jsToLower query) "_meta" = false →
      jsIncludes (jsToLower query) "query __meta" = false →
      jsIncludes (jsToLower query) "query globalstats" = false →
      jsIncludes (jsToLower query) "query homelotteries" = false →
      jsIncludes (jsToLower query) "query lotterybyid" = false →
      jsIncludes (jsToLower query) "query userlotteriesbyuser" = false →
      jsIncludes (jsToLower query) "query userlotteriesbylottery" = false →
      (jsIncludes (jsToLower query) "query lotteriesbycreator" = true ∨
       jsIncludes (jsToLower query) "query lotteriesbyfeerecipient" = true) →
      pickTtlSeconds query = 20) ∧
    (jsIncludes (jsToLower query) "query globalfeed" = false →
      jsIncludes (jsToLower query) "_meta" = false →
      jsIncludes (jsToLower query) "query __meta" = false →
      jsIncludes (jsToLower query) "query globalstats" = false →
      jsIncludes (jsToLower query) "query homelotteries" = false →
      jsIncludes (jsToLower query) "query lotterybyid" = false →
      jsIncludes (jsToLower query) "query userlotteriesbyuser" = false →
      jsIncludes (jsToLower query) "query userlotteriesbylottery" = false →
      jsIncludes (jsToLower query) "query lotteriesbycreator" = false →
      jsIncludes (jsToLower query) "query lotteriesbyfeerecipient" = false →
      pickTtlSeconds query = DEFAULT_TTL_SECONDS) := by
  have hsub : ∀ h : jsIncludes (jsToLower query) "query globalstats" = false,
      jsIncludes (jsToLower query) "query globalstatsbillboard" = false := by
    intro h
    by_contra hb
    simp only [Bool.not_eq_false] at hb
    have : ("query globalstats".data <:+: (jsToLower query).data) := by
      have hb' : ("query globalstatsbillboard".data <:+: (jsToLower query).data) := by
        simpa [jsIncludes] using hb
      have : ("query globalstats".data <:+: "query globalstatsbillboard".data) := by decide
      exact this.trans hb'
    simp [jsIncludes, this] at h
  refine ⟨?_, ?_, ?_, ?_, ?_, ?_⟩
  · intro h1; simp [pickTtlSeconds, h1]
  · intro h1 h2
    rcases h2 with h2 | h2 <;> simp [pickTtlSeconds, h1, h2]
  · intro h1 h2 h3 h4
    rcases h4 with h4 | h4 | h4
    · simp [pickTtlSeconds, h1, h2, h3, h4]
    · have : jsIncludes (jsToLower query) "query globalstats" = true := by
        by_contra hq
        simp only [Bool.not_eq_true] at hq
        simp [hsub hq] at h4
      simp [pickTtlSeconds, h1, h2, h3, this]
    · simp [pickTtlSeconds, h1, h2, h3, h4]
  · intro h1 h2 h3 h4 h5 h6
    have h4b := hsub h4
    rcases h6 with h6 | h6 | h6 <;> simp [pickTtlSeconds, h1, h2, h3, h4, h4b, h5, h6]
  · intro h1 h2 h3 h4 h5 h6 h7 h8 h9
    have h4b := hsub h4
    rcases h9 with h9 | h9 <;> simp [pickTtlSeconds, h1, h2, h3, h4, h4b, h5, h6, h7, h8, h9]
  · intro h1 h2 h3 h4 h5 h6 h7 h8 h9 h10
    have h4b := hsub h4
    simp [pickTtlSeconds, h1, h2, h3, h4, h4b, h5, h6, h7, h8, h9, h10]

/-- Witness for the amended C9 at a concrete input: a creator-filtered list
query gets a 20-second TTL. -/
theorem pickTtlSeconds_C9_witness : pickTtlSeconds "query LotteriesByCreator($a: ID!)" = 20 :=
  (pickTtlSeconds_C9_amended "query LotteriesByCreator($a: ID!)").2.2.2.2.1
    (by decide) (by decide) (by decide) (by decide) (by decide) (by decide)
    (by decide) (by decide) (Or.inl (by decide))
